import Mathlib

/-!
# The LoRa APRS gateway service (`src/loraprs_service.cpp`)

A shallow embedding of `LoraPrs::Service`.  The member functions become pure
functions from a `Service` value (the member variables, together with the
connection status of the `WiFi` and `aprsisConn_` objects) to the next
`Service` value and the list of calls made on the collaborators, in program
order (`Effect`).  What the collaborators hand back to the service (bytes
read from the radio, the serial channel or the socket, the result of a
connect attempt, the answers of the AX.25 codec) is passed in as an argument.
-/

namespace LoraPrs

/-- A `byte` of the source: an unsigned 8-bit value. -/
abbrev Byte := Fin 256

/-! ## Declarations of the header -/

namespace KissMarker

/-- Modelled from the spec: the enumerator `KissMarker::Fend`, declared in the
header `loraprs_service.h`, which is not among the sources; section 6 gives
FrameEnd = 0xC0. -/
@[simp] def Fend : Byte := 0xC0

/-- Modelled from the spec: the enumerator `KissMarker::Fesc`, declared in the
missing header; section 6 gives FrameEscape = 0xDB. -/
@[simp] def Fesc : Byte := 0xDB

/-- Modelled from the spec: the enumerator `KissMarker::Tfend`, declared in the
missing header; section 6 gives TransposedFrameEnd = 0xDC. -/
@[simp] def Tfend : Byte := 0xDC

/-- Modelled from the spec: the enumerator `KissMarker::Tfesc`, declared in the
missing header; section 6 gives TransposedFrameEscape = 0xDD. -/
@[simp] def Tfesc : Byte := 0xDD

end KissMarker

/-- The enumeration `KissState` of the decoder: the four labels of the
`switch` in `onBtDataAvailable`. -/
inductive KissState where
  | Void
  | GetCmd
  | GetData
  | Escape
  deriving DecidableEq, Repr

/-- The enumeration `KissCmd`: the two enumerators the source uses. -/
inductive KissCmd where
  | Data
  | NoCmd
  deriving DecidableEq, Repr

/-- Modelled from the spec: the numeric value of `KissCmd::Data`, declared in
the missing header; section 6 gives command byte 0x00 = Data.  It is the value
the source compares a received byte with and writes as the command byte. -/
@[simp] def KissCmd.dataByte : Byte := 0x00

/-! ## Calls on the collaborators -/

/-- One call made by the service on one of its collaborators. -/
inductive Effect where
  /-- The call `serialBt_.write(b)`. -/
  | btWrite (b : Byte)
  /-- The call `LoRa.beginPacket()`. -/
  | loraBeginPacket
  /-- The call `LoRa.write(b)` with one byte. -/
  | loraWrite (b : Byte)
  /-- The call `LoRa.write(buf, n)`: carries the first `n` bytes of `buf`. -/
  | loraWriteBuf (bs : List Byte)
  /-- The call `LoRa.endPacket()`. -/
  | loraEndPacket
  /-- The call `LoRa.setFrequency(f)`. -/
  | loraSetFrequency (f : Int)
  /-- The call `aprsisConn_.connect(host, port)`. -/
  | aprsisConnect (host : String) (port : Nat)
  /-- The call `aprsisConn_.print(s)`. -/
  | aprsisPrint (s : String)
  /-- The call `aprsisConn_.println(s)`. -/
  | aprsisPrintln (s : String)
  /-- The call `aprsisConn_.stop()`. -/
  | aprsisStop
  /-- The call `WiFi.reconnect()`. -/
  | wifiReconnect
  /-- Output on the diagnostic stream `Serial`. -/
  | log (s : String)
  /-- A call that brings a peripheral up during `setup` (`LoRa.setPins`,
  `LoRa.begin`, `WiFi.begin`, `serialBt_.begin`, ...): its name and its integer
  arguments. -/
  | periph (call : String) (args : List Int)
  deriving DecidableEq, Repr

/-! ## The state of the service -/

/-- The member variables of `Service` that the modelled functions read or
write, and the connection status of the two network objects. -/
structure Service where
  kissState_ : KissState
  kissCmd_ : KissCmd
  /-- The time of the last beacon.  The member is declared in the missing
  header; it is assigned from the local `long currentMs` and is taken to have
  that type: a 32-bit signed `long`. -/
  previousBeaconMs_ : Int
  isClient_ : Bool
  /-- The operating frequency in Hz, a `long` like the frequency error that is
  subtracted from it and the argument of `LoRa.setFrequency`. -/
  loraFreq_ : Int
  ownCallsign_ : String
  aprsLogin_ : String
  aprsHost_ : String
  aprsPort_ : Nat
  aprsBeacon_ : String
  /-- The beacon period in minutes, an `int`. -/
  aprsBeaconPeriodMinutes_ : Int
  autoCorrectFreq_ : Bool
  addSignalReport_ : Bool
  persistentConn_ : Bool
  enableRfToIs_ : Bool
  enableIsToRf_ : Bool
  enableRepeater_ : Bool
  enableBeacon_ : Bool
  /-- Whether `WiFi.status() == WL_CONNECTED` (with a local address). -/
  wifiConnected : Bool
  /-- Whether `aprsisConn_.connected()`. -/
  aprsisConnected : Bool
  deriving DecidableEq, Repr

/-- The inline predicates of the header that the source calls and whose
bodies are not among the sources; they are taken as parameters. -/
structure Decls where
  needsWifi : Service → Bool
  needsAprsis : Service → Bool
  needsBt : Service → Bool
  needsBeacon : Service → Bool
  /-- The constant `CfgLoraprsVersion`. -/
  CfgLoraprsVersion : String

/-- The interface of the AX.25 codec (`AX25::Payload`), which is not among the
sources: the service only consumes its answers.  `Payload` is the type of a
parsed frame. -/
structure Codec (Payload : Type) where
  /-- The constructor `AX25::Payload(rxBuf, rxBufIndex)`. -/
  fromBytes : List Byte → Payload
  /-- The constructor `AX25::Payload(text)`. -/
  fromString : String → Payload
  /-- The method `IsValid()`. -/
  isValid : Payload → Bool
  /-- The method `ToString(suffix)`. -/
  toString : Payload → String → String
  /-- The method `ToBinary(buf, capacity)`: the number it returns and the
  contents it leaves in `buf`. -/
  toBinary : Payload → Nat → Int × List Byte
  /-- The method `Digirepeat(ownCallsign)`: its result and the frame as it
  leaves it (the frame is changed in place). -/
  digirepeat : Payload → String → Bool × Payload

/-- What the network hands back during one call of the service. -/
structure Net where
  /-- How many times the loop of `reconnectWifi` polls before the station is
  associated again.  The loop has no other exit; a run in which the station
  never associates does not return and has no value of this field. -/
  wifiPolls : Nat
  /-- The result of `aprsisConn_.connect(host, port)`. -/
  connectOk : Bool
  deriving DecidableEq, Repr

/-- What the radio driver hands back for one received packet. -/
structure RadioPacket where
  /-- The successive results of `LoRa.read()` while `LoRa.available()`. -/
  bytes : List Byte
  /-- The text `String(snr < 0 ? rssi + snr : rssi)`; the floating-point
  arithmetic and formatting are not modelled. -/
  rssiText : String
  /-- The text `String(snr)`. -/
  snrText : String
  /-- The result of `LoRa.packetFrequencyError()`. -/
  frequencyError : Int
  deriving DecidableEq, Repr

/-! ## Machine integers -/

/-- The value of a mathematical integer stored in a 32-bit two's-complement
`long` or `int` (both are 32 bits wide on the ESP32): reduction modulo 2^32
into the range from -2^31 to 2^31 - 1.  It is the identity on that range; it
is also the conversion of the `unsigned long` result of `millis()` to `long`. -/
def wrapLong (x : Int) : Int := (x + 2147483648) % 4294967296 - 2147483648

/-! ## The KISS decoder (serial to radio) -/

/-- The function `Service::kissResetState`. -/
def kissResetState (s : Service) : Service :=
  { s with kissCmd_ := KissCmd.NoCmd, kissState_ := KissState.Void }

/-- The body of the `while` loop of `Service::onBtDataAvailable` for one byte
`txByte` read from the serial channel: the `switch` on `kissState_`. -/
def onBtByte (s : Service) (txByte : Byte) : Service × List Effect :=
  match s.kissState_ with
  | KissState.Void =>
    if txByte = KissMarker.Fend then
      ({ s with kissCmd_ := KissCmd.NoCmd, kissState_ := KissState.GetCmd }, [])
    else (s, [])
  | KissState.GetCmd =>
    if txByte ≠ KissMarker.Fend then
      if txByte = KissCmd.dataByte then
        ({ s with kissCmd_ := KissCmd.Data, kissState_ := KissState.GetData },
          [Effect.loraBeginPacket])
      else (kissResetState s, [])
    else (s, [])
  | KissState.GetData =>
    if txByte = KissMarker.Fesc then
      ({ s with kissState_ := KissState.Escape }, [])
    else if txByte = KissMarker.Fend then
      (kissResetState s,
        if s.kissCmd_ = KissCmd.Data then [Effect.loraEndPacket] else [])
    else (s, [Effect.loraWrite txByte])
  | KissState.Escape =>
    if txByte = KissMarker.Tfend then
      ({ s with kissState_ := KissState.GetData }, [Effect.loraWrite KissMarker.Fend])
    else if txByte = KissMarker.Tfesc then
      ({ s with kissState_ := KissState.GetData }, [Effect.loraWrite KissMarker.Fesc])
    else (kissResetState s, [])

/-- The function `Service::onBtDataAvailable`, given the bytes that
`serialBt_.read()` returns while `serialBt_.available()`. -/
def onBtDataAvailable (s : Service) : List Byte → Service × List Effect
  | [] => (s, [])
  | txByte :: rest =>
    let r := onBtByte s txByte
    let r2 := onBtDataAvailable r.1 rest
    (r2.1, r.2 ++ r2.2)

/-! ## Sending -/

/-- The function `Service::reconnectWifi`: the loop body runs `net.wifiPolls`
times, after which the station is associated. -/
def reconnectWifi (net : Net) (s : Service) : Service × List Effect :=
  ({ s with wifiConnected := true },
    [Effect.log "WIFI re-connecting..."]
      ++ (List.replicate net.wifiPolls [Effect.wifiReconnect, Effect.log "."]).flatten
      ++ [Effect.log "ok"])

/-- The function `Service::reconnectAprsis`: its result, the next state and the
calls it makes. -/
def reconnectAprsis (net : Net) (s : Service) : Bool × Service × List Effect :=
  if net.connectOk = false then
    (false, { s with aprsisConnected := false },
      [Effect.log "APRSIS connecting...", Effect.aprsisConnect s.aprsHost_ s.aprsPort_,
       Effect.log ("Failed to connect to " ++ s.aprsHost_ ++ ":" ++ toString s.aprsPort_)])
  else
    (true, { s with aprsisConnected := true },
      [Effect.log "APRSIS connecting...", Effect.aprsisConnect s.aprsHost_ s.aprsPort_,
       Effect.log "ok", Effect.aprsisPrint s.aprsLogin_])

/-- The function `Service::sendToAprsis`. -/
def sendToAprsis (h : Decls) (net : Net) (s : Service) (aprsMessage : String) :
    Service × List Effect :=
  let r1 := if h.needsWifi s && !s.wifiConnected then reconnectWifi net s else (s, [])
  let r2 :=
    if h.needsAprsis r1.1 && !r1.1.aprsisConnected then
      ((reconnectAprsis net r1.1).2.1, (reconnectAprsis net r1.1).2.2)
    else (r1.1, [])
  let r3 :=
    if r2.1.persistentConn_ = false then
      ({ r2.1 with aprsisConnected := false }, [Effect.aprsisStop])
    else (r2.1, [])
  (r3.1, r1.2 ++ r2.2 ++ [Effect.aprsisPrintln aprsMessage] ++ r3.2)

/-- The function `Service::sendToLora`: its result and the calls it makes.  The
buffer `buf` has 512 bytes. -/
def sendToLora {P : Type} (codec : Codec P) (payload : P) : Bool × List Effect :=
  let bytesWritten := (codec.toBinary payload 512).1
  let buf := (codec.toBinary payload 512).2
  if bytesWritten ≤ 0 then
    (false, [Effect.log "Failed to serialize payload"])
  else
    (true, [Effect.loraBeginPacket, Effect.loraWriteBuf (buf.take bytesWritten.toNat),
            Effect.loraEndPacket])

/-! ## Receiving from the radio -/

/-- The `while (LoRa.available())` loop of `Service::onLoraDataAvailable`.
The argument `rxBuf` holds the bytes stored so far, so that `rxBufIndex` is
its length and the store `rxBuf[rxBufIndex++] = rxByte` appends; the list is
the bytes that `LoRa.read()` returns.  The result is the final `rxBuf` (its
first `rxBufIndex` bytes) and the calls made. -/
def loraReadLoop (rxBuf : List Byte) : List Byte → List Byte × List Effect
  | [] => (rxBuf, [])
  | rxByte :: rest =>
    if rxByte = KissMarker.Fend then
      let r := loraReadLoop rxBuf rest
      (r.1, Effect.btWrite KissMarker.Fesc :: Effect.btWrite KissMarker.Tfend :: r.2)
    else if rxByte = KissMarker.Fesc then
      let r := loraReadLoop rxBuf rest
      (r.1, Effect.btWrite KissMarker.Fesc :: Effect.btWrite KissMarker.Tfesc :: r.2)
    else
      let r := loraReadLoop (rxBuf ++ [rxByte]) rest
      (r.1, Effect.btWrite rxByte :: r.2)

/-- The string `signalReport` built by `Service::onLoraDataAvailable`. -/
def signalReport (pkt : RadioPacket) : String :=
  " " ++ "rssi: " ++ pkt.rssiText ++ "dBm, " ++ "snr: " ++ pkt.snrText ++ "dB, "
    ++ "err: " ++ toString pkt.frequencyError ++ "Hz"

/-- The function `Service::onLoraDataAvailable` for one received packet.
`packetSize` is the length of the array `rxBuf`; the codec is handed the
first `rxBufIndex` bytes of it, which are the bytes the loop has stored.  The
end of the array is not modelled: every store is taken to land inside it, as
it does when the driver yields at most `packetSize` bytes. -/
def onLoraDataAvailable {P : Type} (h : Decls) (codec : Codec P) (net : Net)
    (s : Service) (packetSize : Nat) (pkt : RadioPacket) : Service × List Effect :=
  let e0 := [Effect.btWrite KissMarker.Fend, Effect.btWrite KissCmd.dataByte]
  let rd := loraReadLoop [] pkt.bytes
  let e1 := rd.2 ++ [Effect.btWrite KissMarker.Fend]
  let r2 :=
    if s.autoCorrectFreq_ then
      ({ s with loraFreq_ := wrapLong (s.loraFreq_ - pkt.frequencyError) },
        [Effect.loraSetFrequency (wrapLong (s.loraFreq_ - pkt.frequencyError))])
    else (s, [])
  let payload := codec.fromBytes rd.1
  if codec.isValid payload then
    let textPayload :=
      codec.toString payload (if r2.1.addSignalReport_ then signalReport pkt else "")
    let r3 :=
      if r2.1.enableRfToIs_ && !r2.1.isClient_ then
        ((sendToAprsis h net r2.1 textPayload).1,
          (sendToAprsis h net r2.1 textPayload).2 ++ [Effect.log "Packet sent to APRS-IS"])
      else (r2.1, [])
    let e4 :=
      if r3.1.enableRepeater_ && !r3.1.isClient_
          && (codec.digirepeat payload r3.1.ownCallsign_).1 then
        (sendToLora codec (codec.digirepeat payload r3.1.ownCallsign_).2).2
          ++ [Effect.log "Packet digirepeated"]
      else []
    (r3.1, e0 ++ e1 ++ r2.2 ++ [Effect.log textPayload] ++ r3.2 ++ e4)
  else
    (r2.1, e0 ++ e1 ++ r2.2 ++ [Effect.log "Invalid or unsupported payload from LoRA"])

/-! ## Receiving from the IP transport -/

/-- The `while (aprsisConn_.available() > 0)` loop of
`Service::onAprsisDataAvailable`, given the characters available on the
socket: the final `aprsisData`, the calls made, and the characters left on
the socket.  A carriage return (13) is skipped, a line feed (10) ends the
loop. -/
def aprsisReadLoop (aprsisData : String) : List Char → String × List Effect × List Char
  | [] => (aprsisData, [], [])
  | c :: rest =>
    if c = Char.ofNat 13 then aprsisReadLoop aprsisData rest
    else if c = Char.ofNat 10 then (aprsisData, [Effect.log (String.singleton c)], rest)
    else
      let r := aprsisReadLoop (aprsisData.push c) rest
      (r.1, Effect.log (String.singleton c) :: r.2.1, r.2.2)

/-- The function `Service::onAprsisDataAvailable`, given the characters
available on the socket. -/
def onAprsisDataAvailable {P : Type} (codec : Codec P) (s : Service)
    (avail : List Char) : Service × List Effect :=
  let rd := aprsisReadLoop "" avail
  let aprsisData := rd.1
  if s.enableIsToRf_ && decide (aprsisData.length > 0) then
    let payload := codec.fromString aprsisData
    if codec.isValid payload then
      (s, rd.2.1 ++ (sendToLora codec payload).2)
    else
      (s, rd.2.1 ++ [Effect.log "Invalid payload from APRSIS"])
  else (s, rd.2.1)

/-! ## The beacon -/

/-- The condition of the `if` in `Service::sendPeriodicBeacon`, for the value
`currentMs` of the local `long`:
`previousBeaconMs_ == 0 || currentMs - previousBeaconMs_ >= aprsBeaconPeriodMinutes_ * 60 * 1000`.
The subtraction is a subtraction of two `long`, the products are products of
`int`; each result is reduced to 32 bits. -/
def beaconDue (s : Service) (currentMs : Int) : Bool :=
  s.previousBeaconMs_ == 0 ||
    decide (wrapLong (wrapLong (s.aprsBeaconPeriodMinutes_ * 60) * 1000)
      ≤ wrapLong (currentMs - s.previousBeaconMs_))

/-- The function `Service::sendPeriodicBeacon`, given the value `millis`
returned by `millis()` (an `unsigned long`, stored in a `long`). -/
def sendPeriodicBeacon {P : Type} (h : Decls) (codec : Codec P) (net : Net)
    (s : Service) (millis : Nat) : Service × List Effect :=
  let currentMs := wrapLong (millis : Int)
  if beaconDue s currentMs then
    let payload := codec.fromString s.aprsBeacon_
    let r :=
      if codec.isValid payload then
        let r2 :=
          if s.enableRfToIs_ then sendToAprsis h net s (codec.toString payload "")
          else (s, [])
        (r2.1, (sendToLora codec payload).2 ++ r2.2 ++ [Effect.log "Periodic beacon is sent"])
      else (s, [Effect.log "Beacon payload is invalid"])
    ({ r.1 with previousBeaconMs_ := currentMs }, r.2)
  else (s, [])

/-! ## Observing the calls -/

/-- The bytes written to the KISS serial channel, in order. -/
def btBytes : List Effect → List Byte
  | [] => []
  | Effect.btWrite b :: es => b :: btBytes es
  | _ :: es => btBytes es

/-- Whether a call transmits on the radio (`beginPacket`, `write`,
`endPacket`). -/
def Effect.isRadioTx : Effect → Bool
  | Effect.loraBeginPacket => true
  | Effect.loraWrite _ => true
  | Effect.loraWriteBuf _ => true
  | Effect.loraEndPacket => true
  | _ => false

/-- The transmit calls made on the radio, in order. -/
def radioCalls (es : List Effect) : List Effect := es.filter Effect.isRadioTx

/-- The arguments of the calls of `LoRa.setFrequency`, in order. -/
def setFrequencyCalls : List Effect → List Int
  | [] => []
  | Effect.loraSetFrequency f :: es => f :: setFrequencyCalls es
  | _ :: es => setFrequencyCalls es

/-- The texts written to the IP socket by `print` and `println`, in order. -/
def aprsisWrites : List Effect → List String
  | [] => []
  | Effect.aprsisPrint t :: es => t :: aprsisWrites es
  | Effect.aprsisPrintln t :: es => t :: aprsisWrites es
  | _ :: es => aprsisWrites es

/-- The messages passed to `aprsisConn_.println`, in order: the lines sent up
to the IP transport (the login line goes through `print`). -/
def aprsisLines : List Effect → List String
  | [] => []
  | Effect.aprsisPrintln t :: es => t :: aprsisLines es
  | _ :: es => aprsisLines es

/-- The radio driver seen from the service, for one call: `cur` is the packet
under construction (`none` when no transmission is open).  `beginPacket`
starts an empty packet (the driver resets its FIFO pointer and payload
length), `write` appends to the open packet, `endPacket` puts it on the air
and closes it.  The result is the packet under construction after the call
and the packets put on the air by it. -/
def radioDriver (cur : Option (List Byte)) : Effect → Option (List Byte) × List (List Byte)
  | Effect.loraBeginPacket => (some [], [])
  | Effect.loraWrite b => (cur.map (fun p => p ++ [b]), [])
  | Effect.loraWriteBuf bs => (cur.map (fun p => p ++ bs), [])
  | Effect.loraEndPacket => (none, cur.toList)
  | _ => (cur, [])

/-- The packets put on the air by a list of calls, from the packet under
construction `cur`. -/
def transmissionsFrom (cur : Option (List Byte)) : List Effect → List (List Byte)
  | [] => []
  | e :: es => (radioDriver cur e).2 ++ transmissionsFrom (radioDriver cur e).1 es

/-- The packet under construction in the radio driver after a list of calls. -/
def openAfter (cur : Option (List Byte)) : List Effect → Option (List Byte)
  | [] => cur
  | e :: es => openAfter (radioDriver cur e).1 es

/-- The completed radio transmissions of a list of calls, starting with no
transmission open. -/
def transmissions (es : List Effect) : List (List Byte) := transmissionsFrom none es

/-! ## The wire format and the transition table as the specification words them -/

/-- The escape of one frame byte as the specification words it: FrameEnd
becomes FrameEscape, TransposedFrameEnd; FrameEscape becomes FrameEscape,
TransposedFrameEscape; any other byte stands for itself. -/
def esc (b : Byte) : List Byte :=
  if b = 0xC0 then [0xDB, 0xDC] else if b = 0xDB then [0xDB, 0xDD] else [b]

/-- The KISS frame of a byte sequence as the specification words it: FrameEnd,
the Data command byte, the escaped bytes, FrameEnd. -/
def kissFrame (data : List Byte) : List Byte :=
  [0xC0, 0x00] ++ (data.map esc).flatten ++ [0xC0]

/-- The four decoder states of the table of section 4.3. -/
inductive TableState where
  | Idle
  | AwaitingCommand
  | ReceivingData
  | Escaped
  deriving DecidableEq, Repr

/-- The radio actions of the table of section 4.3. -/
inductive TableAction where
  /-- No radio action (start new frame, ignore, discard). -/
  | noAction
  /-- Open outbound radio transmission. -/
  | openTransmission
  /-- Append a byte to the radio transmission. -/
  | appendByte (b : Byte)
  /-- Close outbound radio transmission. -/
  | closeTransmission
  deriving DecidableEq, Repr

/-- The decode transition table of section 4.3, row by row: the action and the
next state for a state, the accumulated command (`cmdIsData`: the command is
Data) and an input byte. -/
def kissTable (st : TableState) (cmdIsData : Bool) (b : Byte) : TableAction × TableState :=
  match st with
  | TableState.Idle =>
    if b = 0xC0 then (TableAction.noAction, TableState.AwaitingCommand)
    else (TableAction.noAction, TableState.Idle)
  | TableState.AwaitingCommand =>
    if b = 0xC0 then (TableAction.noAction, TableState.AwaitingCommand)
    else if b = 0x00 then (TableAction.openTransmission, TableState.ReceivingData)
    else (TableAction.noAction, TableState.Idle)
  | TableState.ReceivingData =>
    if b = 0xDB then (TableAction.noAction, TableState.Escaped)
    else if b = 0xC0 then
      (if cmdIsData then TableAction.closeTransmission else TableAction.noAction,
        TableState.Idle)
    else (TableAction.appendByte b, TableState.ReceivingData)
  | TableState.Escaped =>
    if b = 0xDC then (TableAction.appendByte 0xC0, TableState.ReceivingData)
    else if b = 0xDD then (TableAction.appendByte 0xDB, TableState.ReceivingData)
    else (TableAction.noAction, TableState.Idle)

/-- The table state that a decoder state of the source stands for. -/
def KissState.toTable : KissState → TableState
  | KissState.Void => TableState.Idle
  | KissState.GetCmd => TableState.AwaitingCommand
  | KissState.GetData => TableState.ReceivingData
  | KissState.Escape => TableState.Escaped

/-- The radio calls that carry out an action of the table. -/
def TableAction.calls : TableAction → List Effect
  | TableAction.noAction => []
  | TableAction.openTransmission => [Effect.loraBeginPacket]
  | TableAction.appendByte b => [Effect.loraWrite b]
  | TableAction.closeTransmission => [Effect.loraEndPacket]

/-- A byte that causes an invalid transition in state `s`: a command byte other
than 0x00 and other than 0xC0 in `GetCmd`, or a byte other than 0xDC and 0xDD
in `Escape`. -/
def invalidByte (s : Service) (b : Byte) : Prop :=
  (s.kissState_ = KissState.GetCmd ∧ b ≠ 0x00 ∧ b ≠ 0xC0) ∨
    (s.kissState_ = KissState.Escape ∧ b ≠ 0xDC ∧ b ≠ 0xDD)

instance (s : Service) (b : Byte) : Decidable (invalidByte s b) := by
  unfold invalidByte; infer_instance

/-! ## Construction and setup -/

/-- The constructor `Service::Service()`: it initialises `kissState_` to `Void`
and `kissCmd_` to `NoCmd`; the other members keep whatever values `s` gives
them until `setup` assigns them. -/
def construct (s : Service) : Service :=
  { s with kissState_ := KissState.Void, kissCmd_ := KissCmd.NoCmd }

/-- The configuration `Config` passed to `setup`: the fields the source reads.
The structure is declared in a header that is not among the sources. -/
structure Config where
  IsClientMode : Bool
  LoraFreq : Int
  LoraBw : Int
  LoraSf : Nat
  LoraCodingRate : Nat
  LoraPower : Nat
  LoraSync : Nat
  AprsLogin : String
  AprsPass : String
  AprsFilter : String
  AprsHost : String
  AprsPort : Nat
  AprsRawBeacon : String
  AprsRawBeaconPeriodMinutes : Int
  EnableAutoFreqCorrection : Bool
  EnableSignalReport : Bool
  EnablePersistentAprsConnection : Bool
  EnableRfToIs : Bool
  EnableIsToRf : Bool
  EnableRepeater : Bool
  EnableBeacon : Bool
  WifiSsid : String
  WifiKey : String
  BtName : String
  deriving DecidableEq, Repr

/-- What the peripherals hand back during `setup`. -/
structure BringUp where
  /-- How many times `LoRa.begin` fails before it succeeds.  The loop of
  `setupLora` has no other exit. -/
  loraBeginFails : Nat
  /-- The result of `serialBt_.begin(btName)`. -/
  btBeginOk : Bool
  /-- The answers of the network: the polls of the loop of `setupWifi` and the
  result of the connect attempt. -/
  net : Net
  deriving DecidableEq, Repr

/-- The function `Service::setupLora`: the calls it makes. -/
def setupLora (env : BringUp) (loraFreq bw : Int) (sf cr pwr sync : Nat) : List Effect :=
  [Effect.log "LoRa init...", Effect.periph "LoRa.setPins" []]
    ++ (List.replicate env.loraBeginFails
          [Effect.periph "LoRa.begin" [loraFreq], Effect.log "."]).flatten
    ++ [Effect.periph "LoRa.begin" [loraFreq],
        Effect.periph "LoRa.setSyncWord" [(sync : Int)],
        Effect.periph "LoRa.setSpreadingFactor" [(sf : Int)],
        Effect.periph "LoRa.setSignalBandwidth" [bw],
        Effect.periph "LoRa.setCodingRate4" [(cr : Int)],
        Effect.periph "LoRa.setTxPower" [(pwr : Int)],
        Effect.periph "LoRa.enableCrc" [],
        Effect.log "ok"]

/-- The function `Service::setupWifi`: the loop polls `env.net.wifiPolls` times,
after which the station is associated. -/
def setupWifi (env : BringUp) (s : Service) (wifiName wifiKey : String) :
    Service × List Effect :=
  if s.isClient_ = false then
    ({ s with wifiConnected := true },
      [Effect.log ("WIFI connecting to " ++ wifiName),
        Effect.periph "WiFi.setHostname" [], Effect.periph "WiFi.mode" [],
        Effect.periph ("WiFi.begin " ++ wifiName ++ " " ++ wifiKey) []]
        ++ List.replicate env.net.wifiPolls (Effect.log ".")
        ++ [Effect.log "ok", Effect.log "localIP"])
  else (s, [])

/-- The function `Service::setupBt`: the calls it makes. -/
def setupBt (env : BringUp) (btName : String) : List Effect :=
  [Effect.log ("BT init " ++ btName ++ "..."), Effect.periph "serialBt_.begin" [],
    Effect.log (if env.btBeginOk then "ok" else "failed")]

/-- The string `aprsLogin_` as `Service::setup` builds it. -/
def buildAprsLogin (h : Decls) (conf : Config) : String :=
  let login := "user " ++ conf.AprsLogin ++ " pass " ++ conf.AprsPass ++ " vers "
    ++ h.CfgLoraprsVersion
  let login := if conf.AprsFilter.length > 0 then login ++ (" filter " ++ conf.AprsFilter)
    else login
  login ++ "\n"

/-- The function `Service::setup`.  `callsignIsValid` is the method
`AX25::Callsign::IsValid` on the callsign built from a text; the member
`ownCallsign_` is held as that text. -/
def setup (h : Decls) (callsignIsValid : String → Bool) (env : BringUp) (conf : Config)
    (s : Service) : Service × List Effect :=
  let s1 : Service :=
    { s with
      previousBeaconMs_ := 0, isClient_ := conf.IsClientMode, loraFreq_ := conf.LoraFreq,
      ownCallsign_ := conf.AprsLogin, aprsLogin_ := buildAprsLogin h conf,
      aprsHost_ := conf.AprsHost, aprsPort_ := conf.AprsPort,
      aprsBeacon_ := conf.AprsRawBeacon,
      aprsBeaconPeriodMinutes_ := conf.AprsRawBeaconPeriodMinutes,
      autoCorrectFreq_ := conf.EnableAutoFreqCorrection,
      addSignalReport_ := conf.EnableSignalReport,
      persistentConn_ := conf.EnablePersistentAprsConnection,
      enableRfToIs_ := conf.EnableRfToIs, enableIsToRf_ := conf.EnableIsToRf,
      enableRepeater_ := conf.EnableRepeater, enableBeacon_ := conf.EnableBeacon }
  let e1 :=
    if callsignIsValid conf.AprsLogin = false then [Effect.log "Own callsign is not valid"]
    else []
  let e2 := setupLora env conf.LoraFreq conf.LoraBw conf.LoraSf conf.LoraCodingRate
    conf.LoraPower conf.LoraSync
  let r3 :=
    if h.needsWifi s1 then setupWifi env s1 conf.WifiSsid conf.WifiKey else (s1, [])
  let e4 := if h.needsBt r3.1 then setupBt env conf.BtName else []
  let r5 :=
    if h.needsAprsis r3.1 && r3.1.persistentConn_ then
      ((reconnectAprsis env.net r3.1).2.1, (reconnectAprsis env.net r3.1).2.2)
    else (r3.1, [])
  (r5.1, e1 ++ e2 ++ r3.2 ++ e4 ++ r5.2)

/-! ## Runs of the controller -/

/-- The readings at which the beacon fires when `sendPeriodicBeacon` is called
once for every element of the list, in order: an element is the value
returned by `millis()` at that call and the answers of the network during it. -/
def beaconFirings {P : Type} (h : Decls) (codec : Codec P) (s : Service) :
    List (Nat × Net) → List Nat
  | [] => []
  | call :: rest =>
    if beaconDue s (wrapLong (call.1 : Int)) then
      call.1 :: beaconFirings h codec (sendPeriodicBeacon h codec call.2 s call.1).1 rest
    else beaconFirings h codec (sendPeriodicBeacon h codec call.2 s call.1).1 rest

/-- One operation of the controller, with what its collaborators hand back
during it. -/
inductive Op where
  /-- A call of `onBtDataAvailable` with a chunk of serial bytes. -/
  | bt (bytes : List Byte)
  /-- A call of `onLoraDataAvailable`. -/
  | lora (net : Net) (packetSize : Nat) (pkt : RadioPacket)
  /-- A call of `onAprsisDataAvailable`. -/
  | aprsis (avail : List Char)
  /-- A call of `sendPeriodicBeacon`. -/
  | beacon (net : Net) (millis : Nat)
  deriving DecidableEq, Repr

/-- The effect of one operation of the controller. -/
def runOp {P : Type} (h : Decls) (codec : Codec P) (s : Service) : Op → Service × List Effect
  | Op.bt bytes => onBtDataAvailable s bytes
  | Op.lora net packetSize pkt => onLoraDataAvailable h codec net s packetSize pkt
  | Op.aprsis avail => onAprsisDataAvailable codec s avail
  | Op.beacon net millis => sendPeriodicBeacon h codec net s millis

/-- The effect of a sequence of operations of the controller, in order. -/
def runOps {P : Type} (h : Decls) (codec : Codec P) (s : Service) :
    List Op → Service × List Effect
  | [] => (s, [])
  | op :: rest =>
    let r := runOp h codec s op
    let r2 := runOps h codec r.1 rest
    (r2.1, r.2 ++ r2.2)

/-- How many times a list of calls calls `beginPacket` while the radio driver
holds a transmission that was opened and not closed (`cur` is not `none`). -/
def beginsWhileOpen (cur : Option (List Byte)) : List Effect → Nat
  | [] => 0
  | e :: es =>
    (if e = Effect.loraBeginPacket ∧ cur.isSome = true then 1 else 0)
      + beginsWhileOpen (radioDriver cur e).1 es

/-- Whether the decoder is outside a frame: in `Void` or `GetCmd`. -/
def outsideFrame (s : Service) : Bool :=
  decide (s.kissState_ = KissState.Void ∨ s.kissState_ = KissState.GetCmd)

/-- Whether no byte of a chunk meets the decoder in `Escape` with a value other
than 0xDC and 0xDD, that is, no frame is given up after its transmission was
opened. -/
def noEscapeAbort (s : Service) : List Byte → Bool
  | [] => true
  | b :: rest =>
    !(decide (s.kissState_ = KissState.Escape ∧ b ≠ 0xDC ∧ b ≠ 0xDD))
      && noEscapeAbort (onBtByte s b).1 rest

/-- Whether an operation, run in state `s`, gives up no frame in `Escape` (a
chunk of serial bytes) or runs while the decoder is outside a frame (the other
operations). -/
def opAllowed (s : Service) : Op → Bool
  | Op.bt bytes => noEscapeAbort s bytes
  | Op.lora _ _ _ => outsideFrame s
  | Op.aprsis _ => outsideFrame s
  | Op.beacon _ _ => outsideFrame s

/-- Whether a sequence of operations gives up no frame in `Escape` and runs
`onLoraDataAvailable`, `onAprsisDataAvailable` and `sendPeriodicBeacon` only
while the decoder is outside a frame. -/
def orderly {P : Type} (h : Decls) (codec : Codec P) (s : Service) : List Op → Bool
  | [] => true
  | op :: rest => opAllowed s op && orderly h codec (runOp h codec s op).1 rest

/-- Whether a call is made on the IP socket (`connect`, `print`, `println`,
`stop`). -/
def Effect.isAprsis : Effect → Bool
  | Effect.aprsisConnect _ _ => true
  | Effect.aprsisPrint _ => true
  | Effect.aprsisPrintln _ => true
  | Effect.aprsisStop => true
  | Effect.btWrite _ => false
  | Effect.loraBeginPacket => false
  | Effect.loraWrite _ => false
  | Effect.loraWriteBuf _ => false
  | Effect.loraEndPacket => false
  | Effect.loraSetFrequency _ => false
  | Effect.wifiReconnect => false
  | Effect.log _ => false
  | Effect.periph _ _ => false

/-- The calls made on the IP socket, in order. -/
def aprsisCalls (es : List Effect) : List Effect := es.filter Effect.isAprsis

/-- The indices of the stores `rxBuf[rxBufIndex++] = rxByte` that the read loop
of `onLoraDataAvailable` makes, in order, from the value `rxBufIndex` of the
index; the list is the bytes that `LoRa.read()` returns. -/
def loraStoreIndices (rxBufIndex : Nat) : List Byte → List Nat
  | [] => []
  | rxByte :: rest =>
    if rxByte = KissMarker.Fend then loraStoreIndices rxBufIndex rest
    else if rxByte = KissMarker.Fesc then loraStoreIndices rxBufIndex rest
    else rxBufIndex :: loraStoreIndices (rxBufIndex + 1) rest

/-! ## Concrete values for evaluation -/

/-- A service state for evaluating the functions on concrete inputs: the state
the constructor leaves the decoder in (`Void`, `NoCmd`) and the settings of a
gateway with every feature enabled. -/
def sampleService : Service :=
  { kissState_ := KissState.Void, kissCmd_ := KissCmd.NoCmd, previousBeaconMs_ := 0,
    isClient_ := false, loraFreq_ := 433775000, ownCallsign_ := "N0CALL-10",
    aprsLogin_ := "user N0CALL-10 pass 12345 vers LoRAPRS 0.1\n",
    aprsHost_ := "rotate.aprs2.net", aprsPort_ := 14580,
    aprsBeacon_ := "N0CALL-10>APZMDM,WIDE1-1:!0000.00N/00000.00E#LoRA",
    aprsBeaconPeriodMinutes_ := 10, autoCorrectFreq_ := true, addSignalReport_ := true,
    persistentConn_ := false, enableRfToIs_ := true, enableIsToRf_ := true,
    enableRepeater_ := true, enableBeacon_ := true, wifiConnected := true,
    aprsisConnected := false }

/-- Header predicates for evaluation: the network is needed outside client
mode when one of the two gateway directions is enabled. -/
def sampleDecls : Decls :=
  { needsWifi := fun s => !s.isClient_ && (s.enableRfToIs_ || s.enableIsToRf_),
    needsAprsis := fun s => !s.isClient_ && (s.enableRfToIs_ || s.enableIsToRf_),
    needsBt := fun s => s.isClient_,
    needsBeacon := fun s => !s.isClient_ && s.enableBeacon_,
    CfgLoraprsVersion := "LoRAPRS 0.1" }

/-- A codec for evaluation, with the byte sequence itself as parsed frame: a
frame is valid when it is not empty and does not start with a zero byte, its
binary form is the frame when that fits the capacity and fails with 0
otherwise, and it is repeated when it starts with the byte 0x52. -/
def sampleCodec : Codec (List Byte) :=
  { fromBytes := fun bs => bs,
    fromString := fun t => t.toList.map (fun c => Fin.ofNat c.toNat),
    isValid := fun p => !p.isEmpty && p.head? != some 0,
    toString := fun p suffix =>
      String.mk (p.map (fun b => Char.ofNat b.val)) ++ suffix,
    toBinary := fun p capacity =>
      if p.length ≤ capacity then ((p.length : Int), p) else (0, []),
    digirepeat := fun p _ => (p.head? == some 0x52, p) }

/-- A codec for evaluation whose serialization to binary fails for every
frame: `ToBinary` returns 0, the failure that `sendToLora` checks for. -/
def failingCodec : Codec (List Byte) :=
  { sampleCodec with toBinary := fun _ _ => (0, []) }

/-- A network answer for evaluation: the station associates after two polls
and the connect attempt succeeds. -/
def sampleNet : Net := { wifiPolls := 2, connectOk := true }

/-- A network answer for evaluation: the connect attempt fails. -/
def unreachableNet : Net := { wifiPolls := 0, connectOk := false }

/-- A configuration for evaluation: the gateway of the scenario of the
specification, callsign N0CALL, password 12345, no filter. -/
def sampleConfig : Config :=
  { IsClientMode := false, LoraFreq := 433775000, LoraBw := 125000, LoraSf := 12,
    LoraCodingRate := 7, LoraPower := 20, LoraSync := 0xF3, AprsLogin := "N0CALL",
    AprsPass := "12345", AprsFilter := "", AprsHost := "rotate.aprs2.net",
    AprsPort := 14580, AprsRawBeacon := "N0CALL>APZMDM,WIDE1-1:!0000.00N/00000.00E#LoRA",
    AprsRawBeaconPeriodMinutes := 10, EnableAutoFreqCorrection := true,
    EnableSignalReport := true, EnablePersistentAprsConnection := false,
    EnableRfToIs := true, EnableIsToRf := false, EnableRepeater := false,
    EnableBeacon := true, WifiSsid := "ssid", WifiKey := "key", BtName := "loraprs" }

/-- Answers of the peripherals for evaluation: `LoRa.begin` fails once, the
Bluetooth serial starts, the network answers as `sampleNet`. -/
def sampleBringUp : BringUp := { loraBeginFails := 1, btBeginOk := true, net := sampleNet }

/-! ## Lemmas on the observations -/

theorem btBytes_append (a b : List Effect) : btBytes (a ++ b) = btBytes a ++ btBytes b := by
  induction a with
  | nil => rfl
  | cons e es ih => cases e <;> simp [btBytes, ih]

theorem setFrequencyCalls_append (a b : List Effect) :
    setFrequencyCalls (a ++ b) = setFrequencyCalls a ++ setFrequencyCalls b := by
  induction a with
  | nil => rfl
  | cons e es ih => cases e <;> simp [setFrequencyCalls, ih]

theorem aprsisWrites_append (a b : List Effect) :
    aprsisWrites (a ++ b) = aprsisWrites a ++ aprsisWrites b := by
  induction a with
  | nil => rfl
  | cons e es ih => cases e <;> simp [aprsisWrites, ih]

theorem aprsisLines_append (a b : List Effect) :
    aprsisLines (a ++ b) = aprsisLines a ++ aprsisLines b := by
  induction a with
  | nil => rfl
  | cons e es ih => cases e <;> simp [aprsisLines, ih]

theorem radioCalls_nil : radioCalls [] = [] := rfl

theorem radioCalls_cons (e : Effect) (es : List Effect) :
    radioCalls (e :: es) = if e.isRadioTx then e :: radioCalls es else radioCalls es := by
  simp only [radioCalls, List.filter_cons]

theorem radioCalls_append (a b : List Effect) :
    radioCalls (a ++ b) = radioCalls a ++ radioCalls b := by
  simp [radioCalls]

@[simp] theorem isRadioTx_beginPacket : Effect.loraBeginPacket.isRadioTx = true := rfl

@[simp] theorem isRadioTx_write (b : Byte) : (Effect.loraWrite b).isRadioTx = true := rfl

@[simp] theorem isRadioTx_writeBuf (bs : List Byte) :
    (Effect.loraWriteBuf bs).isRadioTx = true := rfl

@[simp] theorem isRadioTx_endPacket : Effect.loraEndPacket.isRadioTx = true := rfl

@[simp] theorem isRadioTx_btWrite (b : Byte) : (Effect.btWrite b).isRadioTx = false := rfl

@[simp] theorem isRadioTx_setFrequency (f : Int) :
    (Effect.loraSetFrequency f).isRadioTx = false := rfl

@[simp] theorem isRadioTx_log (t : String) : (Effect.log t).isRadioTx = false := rfl

@[simp] theorem isRadioTx_aprsisConnect (t : String) (n : Nat) :
    (Effect.aprsisConnect t n).isRadioTx = false := rfl

@[simp] theorem isRadioTx_aprsisPrint (t : String) :
    (Effect.aprsisPrint t).isRadioTx = false := rfl

@[simp] theorem isRadioTx_aprsisPrintln (t : String) :
    (Effect.aprsisPrintln t).isRadioTx = false := rfl

@[simp] theorem isRadioTx_aprsisStop : Effect.aprsisStop.isRadioTx = false := rfl

@[simp] theorem isRadioTx_wifiReconnect : Effect.wifiReconnect.isRadioTx = false := rfl

@[simp] theorem isRadioTx_periph (t : String) (l : List Int) :
    (Effect.periph t l).isRadioTx = false := rfl

@[simp] theorem radioDriver_periph (cur : Option (List Byte)) (t : String) (l : List Int) :
    radioDriver cur (Effect.periph t l) = (cur, []) := rfl

@[simp] theorem radioDriver_beginPacket (cur : Option (List Byte)) :
    radioDriver cur Effect.loraBeginPacket = (some [], []) := rfl

@[simp] theorem radioDriver_write (cur : Option (List Byte)) (b : Byte) :
    radioDriver cur (Effect.loraWrite b) = (cur.map (fun p => p ++ [b]), []) := rfl

@[simp] theorem radioDriver_writeBuf (cur : Option (List Byte)) (bs : List Byte) :
    radioDriver cur (Effect.loraWriteBuf bs) = (cur.map (fun p => p ++ bs), []) := rfl

@[simp] theorem radioDriver_endPacket (cur : Option (List Byte)) :
    radioDriver cur Effect.loraEndPacket = (none, cur.toList) := rfl

@[simp] theorem radioDriver_btWrite (cur : Option (List Byte)) (b : Byte) :
    radioDriver cur (Effect.btWrite b) = (cur, []) := rfl

@[simp] theorem radioDriver_setFrequency (cur : Option (List Byte)) (f : Int) :
    radioDriver cur (Effect.loraSetFrequency f) = (cur, []) := rfl

@[simp] theorem radioDriver_log (cur : Option (List Byte)) (t : String) :
    radioDriver cur (Effect.log t) = (cur, []) := rfl

@[simp] theorem radioDriver_aprsisConnect (cur : Option (List Byte)) (t : String) (n : Nat) :
    radioDriver cur (Effect.aprsisConnect t n) = (cur, []) := rfl

@[simp] theorem radioDriver_aprsisPrint (cur : Option (List Byte)) (t : String) :
    radioDriver cur (Effect.aprsisPrint t) = (cur, []) := rfl

@[simp] theorem radioDriver_aprsisPrintln (cur : Option (List Byte)) (t : String) :
    radioDriver cur (Effect.aprsisPrintln t) = (cur, []) := rfl

@[simp] theorem radioDriver_aprsisStop (cur : Option (List Byte)) :
    radioDriver cur Effect.aprsisStop = (cur, []) := rfl

@[simp] theorem radioDriver_wifiReconnect (cur : Option (List Byte)) :
    radioDriver cur Effect.wifiReconnect = (cur, []) := rfl

theorem transmissionsFrom_append (a b : List Effect) (cur : Option (List Byte)) :
    transmissionsFrom cur (a ++ b)
      = transmissionsFrom cur a ++ transmissionsFrom (openAfter cur a) b := by
  induction a generalizing cur with
  | nil => simp [transmissionsFrom, openAfter]
  | cons e es ih => simp [transmissionsFrom, openAfter, ih]

theorem transmissionsFrom_writes (p data : List Byte) (rest : List Effect) :
    transmissionsFrom (some p) (data.map Effect.loraWrite ++ rest)
      = transmissionsFrom (some (p ++ data)) rest := by
  induction data generalizing p with
  | nil => simp
  | cons b bs ih =>
    show transmissionsFrom (some (p ++ [b])) (bs.map Effect.loraWrite ++ rest) = _
    rw [ih]
    simp

/-! ## Lemmas on the decoder -/

theorem onBtDataAvailable_append (s : Service) (a b : List Byte) :
    onBtDataAvailable s (a ++ b)
      = ((onBtDataAvailable (onBtDataAvailable s a).1 b).1,
          (onBtDataAvailable s a).2 ++ (onBtDataAvailable (onBtDataAvailable s a).1 b).2) := by
  induction a generalizing s with
  | nil => simp [onBtDataAvailable]
  | cons x xs ih => simp [onBtDataAvailable, ih, List.append_assoc]

theorem kissResetState_onBtByte (s : Service) (b : Byte) :
    kissResetState (onBtByte s b).1 = kissResetState s := by
  unfold onBtByte
  split <;> (repeat' split) <;> simp [kissResetState]

theorem kissResetState_onBtDataAvailable (s : Service) (bs : List Byte) :
    kissResetState (onBtDataAvailable s bs).1 = kissResetState s := by
  induction bs generalizing s with
  | nil => rfl
  | cons b rest ih => simp [onBtDataAvailable, ih, kissResetState_onBtByte]

/-- In `GetData`, the escaped form of a byte sequence is decoded into one
`LoRa.write` per byte and leaves the decoder as it was. -/
theorem onBtDataAvailable_escaped (s : Service) (hs : s.kissState_ = KissState.GetData)
    (data rest : List Byte) :
    onBtDataAvailable s ((data.map esc).flatten ++ rest)
      = ((onBtDataAvailable s rest).1,
          data.map Effect.loraWrite ++ (onBtDataAvailable s rest).2) := by
  induction data with
  | nil => simp
  | cons b bs ih =>
    obtain ⟨st, cmd⟩ := s
    simp only at hs
    subst hs
    by_cases h1 : b = 0xC0
    · subst h1
      simp [esc, onBtDataAvailable, onBtByte] at ih ⊢
      simp [ih]
    · by_cases h2 : b = 0xDB
      · subst h2
        simp [esc, onBtDataAvailable, onBtByte] at ih ⊢
        simp [ih]
      · simp [esc, onBtDataAvailable, onBtByte, h1, h2] at ih ⊢
        simp [ih]

/-- The decoder, started in `Void`, turns a KISS frame into one transmission. -/
theorem onBtDataAvailable_kissFrame (s : Service) (hs : s.kissState_ = KissState.Void)
    (data : List Byte) :
    onBtDataAvailable s (kissFrame data)
      = (kissResetState s,
          [Effect.loraBeginPacket] ++ data.map Effect.loraWrite ++ [Effect.loraEndPacket]) := by
  have key := onBtDataAvailable_escaped
    { s with kissCmd_ := KissCmd.Data, kissState_ := KissState.GetData } rfl data [0xC0]
  obtain ⟨st, cmd⟩ := s
  simp only at hs
  subst hs
  simp only [kissFrame, List.cons_append, List.nil_append, List.append_assoc]
  simp [onBtDataAvailable, onBtByte, kissResetState] at key ⊢
  simp [key]

/-- While the decoder is in `Void` or `GetCmd`, what it puts on the air from
then on does not depend on what the radio driver has accumulated. -/
theorem transmissionsFrom_onBtDataAvailable_idle (bs : List Byte) (s : Service)
    (hs : s.kissState_ = KissState.Void ∨ s.kissState_ = KissState.GetCmd)
    (cur cur2 : Option (List Byte)) :
    transmissionsFrom cur (onBtDataAvailable s bs).2
      = transmissionsFrom cur2 (onBtDataAvailable s bs).2 := by
  induction bs generalizing s with
  | nil => simp [onBtDataAvailable, transmissionsFrom]
  | cons b rest ih =>
    obtain ⟨st, cmd⟩ := s
    simp only at hs
    rcases hs with hs | hs
    · subst hs
      by_cases h1 : b = 0xC0
      · simp [onBtDataAvailable, onBtByte, h1]
        exact ih _ (Or.inr rfl)
      · simp [onBtDataAvailable, onBtByte, h1]
        exact ih _ (Or.inl rfl)
    · subst hs
      by_cases h1 : b = 0xC0
      · simp [onBtDataAvailable, onBtByte, h1]
        exact ih _ (Or.inr rfl)
      · by_cases h2 : b = 0x00
        · simp [onBtDataAvailable, onBtByte, h2, transmissionsFrom]
        · simp [onBtDataAvailable, onBtByte, h1, h2, kissResetState]
          exact ih _ (Or.inl rfl)

theorem loraReadLoop_btBytes (rxBuf bytes : List Byte) :
    btBytes (loraReadLoop rxBuf bytes).2 = (bytes.map esc).flatten := by
  induction bytes generalizing rxBuf with
  | nil => simp [loraReadLoop, btBytes]
  | cons b rest ih =>
    by_cases h1 : b = 0xC0
    · simp [loraReadLoop, btBytes, esc, h1, ih]
    · by_cases h2 : b = 0xDB
      · simp [loraReadLoop, btBytes, esc, h2, ih]
      · simp [loraReadLoop, btBytes, esc, h1, h2, ih]

theorem wifiLoop_btBytes (n : Nat) :
    btBytes (List.replicate n [Effect.wifiReconnect, Effect.log "."]).flatten = [] := by
  induction n with
  | zero => rfl
  | succ k ih => simpa [List.replicate_succ, btBytes] using ih

theorem sendToAprsis_btBytes (h : Decls) (net : Net) (s : Service) (msg : String) :
    btBytes (sendToAprsis h net s msg).2 = [] := by
  simp only [sendToAprsis, reconnectWifi, reconnectAprsis]
  repeat' split
  all_goals simp [btBytes_append, btBytes, wifiLoop_btBytes]

theorem sendToLora_btBytes {P : Type} (codec : Codec P) (p : P) :
    btBytes (sendToLora codec p).2 = [] := by
  simp only [sendToLora]
  split <;> simp [btBytes]

/-- The bytes `onLoraDataAvailable` writes to the serial channel are the KISS
frame of the bytes read from the radio. -/
theorem onLoraDataAvailable_btBytes {P : Type} (h : Decls) (codec : Codec P) (net : Net)
    (s : Service) (packetSize : Nat) (pkt : RadioPacket) :
    btBytes (onLoraDataAvailable h codec net s packetSize pkt).2 = kissFrame pkt.bytes := by
  simp only [onLoraDataAvailable]
  repeat' split
  all_goals
    simp [btBytes_append, btBytes, loraReadLoop_btBytes, sendToAprsis_btBytes,
      sendToLora_btBytes, kissFrame]

/-- The calls `beginPacket`, one `write` per byte, `endPacket` complete one
transmission, whose payload is the bytes written. -/
theorem transmissions_frame (data : List Byte) :
    transmissions ([Effect.loraBeginPacket] ++ data.map Effect.loraWrite
      ++ [Effect.loraEndPacket]) = [data] := by
  show transmissionsFrom (some []) (data.map Effect.loraWrite ++ [Effect.loraEndPacket])
    = [data]
  rw [transmissionsFrom_writes]
  simp [transmissionsFrom]

/-! ## C1: KISS round trip -/

/-- C1. For every byte sequence read from the radio, feeding the bytes that
`onLoraDataAvailable` writes to the serial channel into `onBtDataAvailable`,
started in `Void`, resets the decoder (state `Void`, command `NoCmd`, nothing
else changed), makes exactly the radio calls `beginPacket`, one `write` per
byte of the sequence in order, `endPacket`, and so completes exactly one
transmission, whose payload is the sequence. -/
theorem kiss_roundtrip {P : Type} (h : Decls) (codec : Codec P) (net : Net) (g : Service)
    (packetSize : Nat) (pkt : RadioPacket) (d : Service)
    (hd : d.kissState_ = KissState.Void) :
    (onBtDataAvailable d
        (btBytes (onLoraDataAvailable h codec net g packetSize pkt).2)).1 = kissResetState d ∧
      (onBtDataAvailable d
        (btBytes (onLoraDataAvailable h codec net g packetSize pkt).2)).2
        = [Effect.loraBeginPacket] ++ pkt.bytes.map Effect.loraWrite
            ++ [Effect.loraEndPacket] ∧
      transmissions (onBtDataAvailable d
        (btBytes (onLoraDataAvailable h codec net g packetSize pkt).2)).2 = [pkt.bytes] := by
  rw [onLoraDataAvailable_btBytes, onBtDataAvailable_kissFrame d hd]
  exact ⟨rfl, rfl, transmissions_frame pkt.bytes⟩

/-- C1 at a packet holding 0x41, 0xC0 and 0xDB, and at the wire bytes of the
scenario of the specification. -/
theorem kiss_roundtrip_witness :
    sampleService.kissState_ = KissState.Void ∧
      transmissions (onBtDataAvailable sampleService
        (btBytes (onLoraDataAvailable sampleDecls sampleCodec sampleNet sampleService 3
          { bytes := [0x41, 0xC0, 0xDB], rssiText := "-90", snrText := "7",
            frequencyError := 120 }).2)).2 = [[0x41, 0xC0, 0xDB]] ∧
      transmissions (onBtDataAvailable sampleService [0xC0, 0x00, 0xDB, 0xDC, 0xC0]).2
        = [[0xC0]] :=
  ⟨rfl, (kiss_roundtrip sampleDecls sampleCodec sampleNet sampleService 3
      { bytes := [0x41, 0xC0, 0xDB], rssiText := "-90", snrText := "7",
        frequencyError := 120 } sampleService rfl).2.2, by decide⟩

/-! ## C2: the KISS encoding -/

theorem esc_no_frameEnd (data : List Byte) : (0xC0 : Byte) ∉ (data.map esc).flatten := by
  induction data with
  | nil => simp
  | cons b bs ih =>
    by_cases h1 : b = 0xC0
    · simpa [esc, h1] using ih
    · by_cases h2 : b = 0xDB
      · simpa [esc, h2] using ih
      · have h3 : ¬ (0xC0 : Byte) = b := fun e => h1 e.symm
        simpa [esc, h1, h2, h3] using ih

/-- C2. The bytes `onLoraDataAvailable` writes to the serial channel for a
packet are 0xC0, 0x00, the escape of every byte of the packet in order (0xC0
as 0xDB 0xDC, 0xDB as 0xDB 0xDD, any other byte as itself), 0xC0; and 0xC0
occurs in them only at the first and at the last position. -/
theorem kiss_encode_format {P : Type} (h : Decls) (codec : Codec P) (net : Net)
    (s : Service) (packetSize : Nat) (pkt : RadioPacket) :
    btBytes (onLoraDataAvailable h codec net s packetSize pkt).2
        = [0xC0, 0x00] ++ (pkt.bytes.map esc).flatten ++ [0xC0] ∧
      (esc 0xC0 = [0xDB, 0xDC] ∧ esc 0xDB = [0xDB, 0xDD] ∧
        ∀ b : Byte, b ≠ 0xC0 → b ≠ 0xDB → esc b = [b]) ∧
      ∀ i : Nat,
        (btBytes (onLoraDataAvailable h codec net s packetSize pkt).2)[i]? = some 0xC0 →
          i = 0 ∨ i + 1 = (btBytes (onLoraDataAvailable h codec net s packetSize pkt).2).length := by
  rw [onLoraDataAvailable_btBytes]
  refine ⟨rfl, ⟨by decide, by decide, fun b h1 h2 => by simp [esc, h1, h2]⟩, ?_⟩
  intro i hi
  have hno := esc_no_frameEnd pkt.bytes
  simp only [kissFrame, List.cons_append, List.nil_append] at hi ⊢
  generalize (pkt.bytes.map esc).flatten = mid at hno hi ⊢
  match i, hi with
  | 0, _ => exact Or.inl rfl
  | 1, hi => simp at hi
  | k + 2, hi =>
    right
    simp only [List.getElem?_cons_succ] at hi
    rcases Nat.lt_or_ge k mid.length with hk | hk
    · rw [List.getElem?_append_left hk] at hi
      exact absurd (List.getElem?_mem hi) hno
    · rw [List.getElem?_append_right hk] at hi
      have : k - mid.length = 0 := by
        by_contra hne
        obtain ⟨j, hj⟩ := Nat.exists_eq_succ_of_ne_zero hne
        rw [hj] at hi
        simp at hi
      simp
      omega

/-! ## C3: the decoder follows the transition table -/

/-- C3. For every decoder state, every stored command and every input byte,
the `switch` of `onBtDataAvailable` moves to the state that the table of
section 4.3 gives and makes exactly the radio calls of the action the table
gives (none, `beginPacket`, `write` of the byte or of the literal 0xC0 or 0xDB,
`endPacket`); and decoding 0xC0, 0x00, 0x41, 0xC0 from `Void` completes one
transmission, holding the single byte 0x41. -/
theorem onBtByte_conforms_to_table (s : Service) (b : Byte) :
    (onBtByte s b).1.kissState_.toTable
        = (kissTable s.kissState_.toTable (decide (s.kissCmd_ = KissCmd.Data)) b).2 ∧
      (onBtByte s b).2
        = (kissTable s.kissState_.toTable (decide (s.kissCmd_ = KissCmd.Data)) b).1.calls ∧
      transmissions
        (onBtDataAvailable { s with kissState_ := KissState.Void } [0xC0, 0x00, 0x41, 0xC0]).2
        = [[0x41]] := by
  refine ⟨?_, ?_, ?_⟩
  · obtain ⟨st, cmd⟩ := s
    cases st <;> simp only [onBtByte, kissTable, KissState.toTable, kissResetState,
      KissMarker.Fend, KissMarker.Fesc, KissMarker.Tfend, KissMarker.Tfesc,
      KissCmd.dataByte, ne_eq, ite_not] <;> (repeat' split) <;> simp_all [KissState.toTable]
  · obtain ⟨st, cmd⟩ := s
    cases st <;> simp only [onBtByte, kissTable, KissState.toTable, kissResetState,
      KissMarker.Fend, KissMarker.Fesc, KissMarker.Tfend, KissMarker.Tfesc,
      KissCmd.dataByte, ne_eq, ite_not] <;> (repeat' split) <;>
      simp_all [TableAction.calls]
  · have hf := onBtDataAvailable_kissFrame { s with kissState_ := KissState.Void } rfl [0x41]
    have hk : kissFrame [0x41] = [0xC0, 0x00, 0x41, 0xC0] := by decide
    rw [hk] at hf
    rw [hf]
    exact transmissions_frame [0x41]

/-! ## C4: the decoder resets on an invalid byte -/

/-- C4. Decoding any byte sequence from any decoder state ends in one of the
four states.  When, after the bytes `pre`, the byte `b` causes an invalid
transition, then right after `b` the state is `Void` and the command `NoCmd`,
`b` causes no radio call (no `endPacket` for the frame given up), and,
whatever the radio driver holds at the start, the transmissions completed over
the whole input `pre`, `b`, `post` are those completed during `pre` followed
by those a reset decoder completes on `post` alone, from an empty driver:
nothing accumulated for the frame given up is part of them. -/
theorem decoder_reset_safety (s : Service) (pre post : List Byte) (b : Byte)
    (hinv : invalidByte (onBtDataAvailable s pre).1 b) :
    ((onBtDataAvailable s (pre ++ b :: post)).1.kissState_ = KissState.Void ∨
        (onBtDataAvailable s (pre ++ b :: post)).1.kissState_ = KissState.GetCmd ∨
        (onBtDataAvailable s (pre ++ b :: post)).1.kissState_ = KissState.GetData ∨
        (onBtDataAvailable s (pre ++ b :: post)).1.kissState_ = KissState.Escape) ∧
      (onBtDataAvailable s (pre ++ [b])).1.kissState_ = KissState.Void ∧
      (onBtDataAvailable s (pre ++ [b])).1.kissCmd_ = KissCmd.NoCmd ∧
      (onBtByte (onBtDataAvailable s pre).1 b).2 = [] ∧
      (onBtDataAvailable s (pre ++ [b])).2 = (onBtDataAvailable s pre).2 ∧
      ∀ cur : Option (List Byte),
        transmissionsFrom cur (onBtDataAvailable s (pre ++ b :: post)).2
          = transmissionsFrom cur (onBtDataAvailable s pre).2
              ++ transmissions (onBtDataAvailable (kissResetState s) post).2 := by
  have hstep : onBtByte (onBtDataAvailable s pre).1 b = (kissResetState s, []) := by
    rw [← kissResetState_onBtDataAvailable s pre]
    generalize (onBtDataAvailable s pre).1 = s1 at hinv
    obtain ⟨st, cmd⟩ := s1
    rcases hinv with ⟨h1, h2, h3⟩ | ⟨h1, h2, h3⟩
    · simp only at h1
      subst h1
      simp [onBtByte, h2, h3]
    · simp only at h1
      subst h1
      simp [onBtByte, h2, h3]
  refine ⟨?_, ?_, ?_, ?_, ?_, ?_⟩
  · cases (onBtDataAvailable s (pre ++ b :: post)).1.kissState_ <;> simp
  · simp [onBtDataAvailable_append, onBtDataAvailable, hstep, kissResetState]
  · simp [onBtDataAvailable_append, onBtDataAvailable, hstep, kissResetState]
  · rw [hstep]
  · simp [onBtDataAvailable_append, onBtDataAvailable, hstep]
  · intro cur
    simp only [onBtDataAvailable_append, onBtDataAvailable, hstep, List.nil_append,
      transmissions]
    rw [transmissionsFrom_append]
    congr 1
    exact transmissionsFrom_onBtDataAvailable_idle post (kissResetState s) (Or.inl rfl) _ _

/-- C4 at the input 0xC0, 0x00, 0x41, 0xDB followed by the invalid 0x42 and
then by the frame 0xC0, 0x00, 0x43, 0xC0: only the second frame is
transmitted. -/
theorem decoder_reset_safety_witness :
    invalidByte (onBtDataAvailable sampleService [0xC0, 0x00, 0x41, 0xDB]).1 0x42 ∧
      transmissions (onBtDataAvailable sampleService
        ([0xC0, 0x00, 0x41, 0xDB] ++ 0x42 :: [0xC0, 0x00, 0x43, 0xC0])).2 = [[0x43]] :=
  ⟨by decide,
    ((decoder_reset_safety sampleService [0xC0, 0x00, 0x41, 0xDB] [0xC0, 0x00, 0x43, 0xC0]
      0x42 (by decide)).2.2.2.2.2 none).trans (by decide)⟩

/-! ## Lemmas on the calls of the sending and receiving functions -/

theorem radioCalls_map_btWrite (l : List Byte) : radioCalls (l.map Effect.btWrite) = [] := by
  induction l with
  | nil => rfl
  | cons b bs ih => simp [radioCalls]

theorem aprsisWrites_map_btWrite (l : List Byte) : aprsisWrites (l.map Effect.btWrite) = [] := by
  induction l with
  | nil => rfl
  | cons b bs ih => simpa [aprsisWrites] using ih

theorem aprsisLines_map_btWrite (l : List Byte) : aprsisLines (l.map Effect.btWrite) = [] := by
  induction l with
  | nil => rfl
  | cons b bs ih => simpa [aprsisLines] using ih

theorem setFrequencyCalls_map_btWrite (l : List Byte) :
    setFrequencyCalls (l.map Effect.btWrite) = [] := by
  induction l with
  | nil => rfl
  | cons b bs ih => simpa [setFrequencyCalls] using ih

theorem btBytes_map_log (l : List String) : btBytes (l.map Effect.log) = [] := by
  induction l with
  | nil => rfl
  | cons b bs ih => simpa [btBytes] using ih

theorem radioCalls_map_log (l : List String) : radioCalls (l.map Effect.log) = [] := by
  induction l with
  | nil => rfl
  | cons b bs ih => simp [radioCalls]

theorem aprsisWrites_map_log (l : List String) : aprsisWrites (l.map Effect.log) = [] := by
  induction l with
  | nil => rfl
  | cons b bs ih => simpa [aprsisWrites] using ih

theorem setFrequencyCalls_map_log (l : List String) :
    setFrequencyCalls (l.map Effect.log) = [] := by
  induction l with
  | nil => rfl
  | cons b bs ih => simpa [setFrequencyCalls] using ih

theorem wifiLoop_radioCalls (n : Nat) :
    radioCalls (List.replicate n [Effect.wifiReconnect, Effect.log "."]).flatten = [] := by
  induction n with
  | zero => rfl
  | succ k ih => simp [List.replicate_succ, radioCalls]

theorem wifiLoop_aprsisLines (n : Nat) :
    aprsisLines (List.replicate n [Effect.wifiReconnect, Effect.log "."]).flatten = [] := by
  induction n with
  | zero => rfl
  | succ k ih => simpa [List.replicate_succ, aprsisLines] using ih

theorem wifiLoop_setFrequencyCalls (n : Nat) :
    setFrequencyCalls (List.replicate n [Effect.wifiReconnect, Effect.log "."]).flatten
      = [] := by
  induction n with
  | zero => rfl
  | succ k ih => simpa [List.replicate_succ, setFrequencyCalls] using ih

/-- The calls of the read loop are the writes of the escaped bytes to the
serial channel. -/
theorem loraReadLoop_calls (rxBuf bytes : List Byte) :
    (loraReadLoop rxBuf bytes).2 = ((bytes.map esc).flatten).map Effect.btWrite := by
  induction bytes generalizing rxBuf with
  | nil => simp [loraReadLoop]
  | cons b rest ih =>
    by_cases h1 : b = 0xC0
    · simp [loraReadLoop, esc, h1, ih]
    · by_cases h2 : b = 0xDB
      · simp [loraReadLoop, esc, h2, ih]
      · simp [loraReadLoop, esc, h1, h2, ih]

/-- Every call of the socket read loop is diagnostic output. -/
theorem aprsisReadLoop_calls (aprsisData : String) (avail : List Char) :
    ∃ l : List String, (aprsisReadLoop aprsisData avail).2.1 = l.map Effect.log := by
  induction avail generalizing aprsisData with
  | nil => exact ⟨[], rfl⟩
  | cons c rest ih =>
    simp only [aprsisReadLoop]
    split
    · exact ih aprsisData
    · split
      · exact ⟨[String.singleton c], rfl⟩
      · obtain ⟨l, hl⟩ := ih (aprsisData.push c)
        exact ⟨String.singleton c :: l, by simp [hl]⟩

theorem sendToAprsis_radioCalls (h : Decls) (net : Net) (s : Service) (msg : String) :
    radioCalls (sendToAprsis h net s msg).2 = [] := by
  simp only [sendToAprsis, reconnectWifi, reconnectAprsis]
  repeat' split
  all_goals simp [radioCalls_append, wifiLoop_radioCalls]
  all_goals simp [radioCalls]

theorem sendToAprsis_setFrequencyCalls (h : Decls) (net : Net) (s : Service) (msg : String) :
    setFrequencyCalls (sendToAprsis h net s msg).2 = [] := by
  simp only [sendToAprsis, reconnectWifi, reconnectAprsis]
  repeat' split
  all_goals simp [setFrequencyCalls_append, setFrequencyCalls, wifiLoop_setFrequencyCalls]

/-- The function `sendToAprsis` passes its message to `println` exactly once
and nothing else. -/
theorem sendToAprsis_aprsisLines (h : Decls) (net : Net) (s : Service) (msg : String) :
    aprsisLines (sendToAprsis h net s msg).2 = [msg] := by
  simp only [sendToAprsis, reconnectWifi, reconnectAprsis]
  repeat' split
  all_goals simp [aprsisLines_append, aprsisLines, wifiLoop_aprsisLines]

/-- The function `sendToAprsis` changes nothing of the service but the two
connection flags. -/
theorem sendToAprsis_state (h : Decls) (net : Net) (s : Service) (msg : String) :
    ∃ w a, (sendToAprsis h net s msg).1 = { s with wifiConnected := w, aprsisConnected := a } := by
  simp only [sendToAprsis, reconnectWifi, reconnectAprsis]
  repeat' split
  all_goals exact ⟨_, _, rfl⟩

theorem sendToLora_radioCalls {P : Type} (codec : Codec P) (p : P) :
    radioCalls (sendToLora codec p).2
      = if 0 < (codec.toBinary p 512).1 then
          [Effect.loraBeginPacket,
            Effect.loraWriteBuf ((codec.toBinary p 512).2.take (codec.toBinary p 512).1.toNat),
            Effect.loraEndPacket]
        else [] := by
  simp only [sendToLora]
  by_cases hn : (codec.toBinary p 512).1 ≤ 0
  · simp [hn, radioCalls, not_lt.mpr hn]
  · simp [hn, radioCalls, not_le.mp hn]

theorem sendToLora_aprsisWrites {P : Type} (codec : Codec P) (p : P) :
    aprsisWrites (sendToLora codec p).2 = [] := by
  simp only [sendToLora]
  split <;> simp [aprsisWrites]

theorem sendToLora_aprsisLines {P : Type} (codec : Codec P) (p : P) :
    aprsisLines (sendToLora codec p).2 = [] := by
  simp only [sendToLora]
  split <;> simp [aprsisLines]

theorem sendToLora_setFrequencyCalls {P : Type} (codec : Codec P) (p : P) :
    setFrequencyCalls (sendToLora codec p).2 = [] := by
  simp only [sendToLora]
  split <;> simp [setFrequencyCalls]

/-- Only the transmit calls matter to what the radio puts on the air. -/
theorem transmissionsFrom_radioCalls (es : List Effect) (cur : Option (List Byte)) :
    transmissionsFrom cur es = transmissionsFrom cur (radioCalls es) := by
  induction es generalizing cur with
  | nil => rfl
  | cons e rest ih =>
    cases e <;> simp [radioCalls, transmissionsFrom] <;> exact ih _

theorem wrapLong_of_inRange (x : Int) (h1 : -2147483648 ≤ x) (h2 : x < 2147483648) :
    wrapLong x = x := by
  unfold wrapLong
  omega

/-- The result of `onLoraDataAvailable` for a packet the codec reports
invalid. -/
theorem onLoraDataAvailable_invalid {P : Type} (h : Decls) (codec : Codec P) (net : Net)
    (s : Service) (packetSize : Nat) (pkt : RadioPacket)
    (hv : codec.isValid (codec.fromBytes (loraReadLoop [] pkt.bytes).1) = false) :
    onLoraDataAvailable h codec net s packetSize pkt
      = ((if s.autoCorrectFreq_ then
            { s with loraFreq_ := wrapLong (s.loraFreq_ - pkt.frequencyError) }
          else s),
          (kissFrame pkt.bytes).map Effect.btWrite
            ++ (if s.autoCorrectFreq_ then
                  [Effect.loraSetFrequency (wrapLong (s.loraFreq_ - pkt.frequencyError))]
                else [])
            ++ [Effect.log "Invalid or unsupported payload from LoRA"]) := by
  simp only [onLoraDataAvailable, hv, loraReadLoop_calls]
  cases s.autoCorrectFreq_ <;> simp [kissFrame]

@[simp] theorem sendToAprsis_loraFreq (h : Decls) (net : Net) (s : Service) (msg : String) :
    (sendToAprsis h net s msg).1.loraFreq_ = s.loraFreq_ := by
  obtain ⟨w, a, hst⟩ := sendToAprsis_state h net s msg
  rw [hst]

@[simp] theorem sendToAprsis_previousBeaconMs (h : Decls) (net : Net) (s : Service)
    (msg : String) : (sendToAprsis h net s msg).1.previousBeaconMs_ = s.previousBeaconMs_ := by
  obtain ⟨w, a, hst⟩ := sendToAprsis_state h net s msg
  rw [hst]

@[simp] theorem sendToAprsis_enableRepeater (h : Decls) (net : Net) (s : Service)
    (msg : String) : (sendToAprsis h net s msg).1.enableRepeater_ = s.enableRepeater_ := by
  obtain ⟨w, a, hst⟩ := sendToAprsis_state h net s msg
  rw [hst]

@[simp] theorem sendToAprsis_isClient (h : Decls) (net : Net) (s : Service) (msg : String) :
    (sendToAprsis h net s msg).1.isClient_ = s.isClient_ := by
  obtain ⟨w, a, hst⟩ := sendToAprsis_state h net s msg
  rw [hst]

@[simp] theorem sendToAprsis_ownCallsign (h : Decls) (net : Net) (s : Service)
    (msg : String) : (sendToAprsis h net s msg).1.ownCallsign_ = s.ownCallsign_ := by
  obtain ⟨w, a, hst⟩ := sendToAprsis_state h net s msg
  rw [hst]

theorem loraReadLoop_radioCalls (rxBuf bytes : List Byte) :
    radioCalls (loraReadLoop rxBuf bytes).2 = [] := by
  rw [loraReadLoop_calls, radioCalls_map_btWrite]

theorem loraReadLoop_aprsisWrites (rxBuf bytes : List Byte) :
    aprsisWrites (loraReadLoop rxBuf bytes).2 = [] := by
  rw [loraReadLoop_calls, aprsisWrites_map_btWrite]

theorem loraReadLoop_aprsisLines (rxBuf bytes : List Byte) :
    aprsisLines (loraReadLoop rxBuf bytes).2 = [] := by
  rw [loraReadLoop_calls, aprsisLines_map_btWrite]

theorem loraReadLoop_setFrequencyCalls (rxBuf bytes : List Byte) :
    setFrequencyCalls (loraReadLoop rxBuf bytes).2 = [] := by
  rw [loraReadLoop_calls, setFrequencyCalls_map_btWrite]

/-- The lines `onLoraDataAvailable` sends up to the IP transport for a packet
the codec reports valid. -/
theorem onLoraDataAvailable_aprsisLines {P : Type} (h : Decls) (codec : Codec P) (net : Net)
    (s : Service) (packetSize : Nat) (pkt : RadioPacket)
    (hv : codec.isValid (codec.fromBytes (loraReadLoop [] pkt.bytes).1) = true) :
    aprsisLines (onLoraDataAvailable h codec net s packetSize pkt).2
      = (if !s.isClient_ && s.enableRfToIs_ then
          [codec.toString (codec.fromBytes (loraReadLoop [] pkt.bytes).1)
            (if s.addSignalReport_ then signalReport pkt else "")]
        else []) := by
  obtain ⟨st, cmd, prev, client, freq, call, login, host, port, beacon, minutes, auto,
    report, persistent, rfToIs, isToRf, repeater, beaconOn, wifi, conn⟩ := s
  cases hd : (codec.digirepeat (codec.fromBytes (loraReadLoop [] pkt.bytes).1) call).1 <;>
    cases auto <;> cases client <;> cases rfToIs <;> cases repeater <;>
    simp [onLoraDataAvailable, hv, hd, aprsisLines_append, aprsisLines,
      loraReadLoop_aprsisLines, sendToAprsis_aprsisLines, sendToLora_aprsisLines]

/-- The transmit calls `onLoraDataAvailable` makes on the radio for a packet
the codec reports valid. -/
theorem onLoraDataAvailable_radioCalls {P : Type} (h : Decls) (codec : Codec P) (net : Net)
    (s : Service) (packetSize : Nat) (pkt : RadioPacket)
    (hv : codec.isValid (codec.fromBytes (loraReadLoop [] pkt.bytes).1) = true) :
    radioCalls (onLoraDataAvailable h codec net s packetSize pkt).2
      = (if !s.isClient_ && s.enableRepeater_ &&
            (codec.digirepeat (codec.fromBytes (loraReadLoop [] pkt.bytes).1)
              s.ownCallsign_).1 then
          radioCalls (sendToLora codec
            (codec.digirepeat (codec.fromBytes (loraReadLoop [] pkt.bytes).1)
              s.ownCallsign_).2).2
        else []) := by
  obtain ⟨st, cmd, prev, client, freq, call, login, host, port, beacon, minutes, auto,
    report, persistent, rfToIs, isToRf, repeater, beaconOn, wifi, conn⟩ := s
  cases hd : (codec.digirepeat (codec.fromBytes (loraReadLoop [] pkt.bytes).1) call).1 <;>
    cases auto <;> cases client <;> cases rfToIs <;> cases repeater <;>
    simp [onLoraDataAvailable, hv, hd, radioCalls_append, loraReadLoop_radioCalls,
      sendToAprsis_radioCalls, radioCalls_cons, radioCalls_nil]

/-- The calls of `LoRa.setFrequency` that `onLoraDataAvailable` makes. -/
theorem onLoraDataAvailable_setFrequencyCalls {P : Type} (h : Decls) (codec : Codec P)
    (net : Net) (s : Service) (packetSize : Nat) (pkt : RadioPacket) :
    setFrequencyCalls (onLoraDataAvailable h codec net s packetSize pkt).2
      = (if s.autoCorrectFreq_ then [wrapLong (s.loraFreq_ - pkt.frequencyError)]
        else []) := by
  obtain ⟨st, cmd, prev, client, freq, call, login, host, port, beacon, minutes, auto,
    report, persistent, rfToIs, isToRf, repeater, beaconOn, wifi, conn⟩ := s
  cases hv : codec.isValid (codec.fromBytes (loraReadLoop [] pkt.bytes).1) <;>
    cases hd : (codec.digirepeat (codec.fromBytes (loraReadLoop [] pkt.bytes).1) call).1 <;>
    cases auto <;> cases client <;> cases rfToIs <;> cases repeater <;>
    simp [onLoraDataAvailable, hv, hd, setFrequencyCalls_append, setFrequencyCalls,
      loraReadLoop_setFrequencyCalls, sendToAprsis_setFrequencyCalls,
      sendToLora_setFrequencyCalls]

/-- The operating frequency and the beacon time after `onLoraDataAvailable`. -/
theorem onLoraDataAvailable_state {P : Type} (h : Decls) (codec : Codec P)
    (net : Net) (s : Service) (packetSize : Nat) (pkt : RadioPacket) :
    (onLoraDataAvailable h codec net s packetSize pkt).1.loraFreq_
        = (if s.autoCorrectFreq_ then wrapLong (s.loraFreq_ - pkt.frequencyError)
          else s.loraFreq_) ∧
      (onLoraDataAvailable h codec net s packetSize pkt).1.previousBeaconMs_
        = s.previousBeaconMs_ := by
  obtain ⟨st, cmd, prev, client, freq, call, login, host, port, beacon, minutes, auto,
    report, persistent, rfToIs, isToRf, repeater, beaconOn, wifi, conn⟩ := s
  cases hv : codec.isValid (codec.fromBytes (loraReadLoop [] pkt.bytes).1) <;>
    cases auto <;> cases client <;> cases rfToIs <;>
    simp [onLoraDataAvailable, hv]

/-- The calls of `onAprsisDataAvailable` besides the diagnostic output of its
read loop. -/
theorem onAprsisDataAvailable_calls {P : Type} (codec : Codec P) (s : Service)
    (avail : List Char) :
    ∃ l : List String,
      onAprsisDataAvailable codec s avail
        = (s, l.map Effect.log ++
            (if s.enableIsToRf_ && decide ((aprsisReadLoop "" avail).1.length > 0) then
              (if codec.isValid (codec.fromString (aprsisReadLoop "" avail).1) then
                (sendToLora codec (codec.fromString (aprsisReadLoop "" avail).1)).2
              else [Effect.log "Invalid payload from APRSIS"])
            else [])) := by
  obtain ⟨l, hl⟩ := aprsisReadLoop_calls "" avail
  refine ⟨l, ?_⟩
  simp only [onAprsisDataAvailable, hl]
  split
  · split <;> rfl
  · simp

theorem btBytes_map_btWrite (l : List Byte) : btBytes (l.map Effect.btWrite) = l := by
  induction l with
  | nil => rfl
  | cons b bs ih => simpa [btBytes] using ih

/-! ## C5: frames the codec reports invalid -/

/-- C5 as stated fails: for the radio packet 0x00, 0x41, which the codec
reports invalid, `onLoraDataAvailable` (auto-correction enabled, frequency
error 120 Hz) writes five bytes to the KISS serial channel and changes
`loraFreq_` from 433775000 to 433774880. -/
theorem invalid_frame_gating_counterexample :
    sampleCodec.isValid (sampleCodec.fromBytes (loraReadLoop [] [0x00, 0x41]).1) = false ∧
      btBytes (onLoraDataAvailable sampleDecls sampleCodec sampleNet sampleService 2
        { bytes := [0x00, 0x41], rssiText := "-90", snrText := "7",
          frequencyError := 120 }).2 = [0xC0, 0x00, 0x00, 0x41, 0xC0] ∧
      sampleService.loraFreq_ = 433775000 ∧
      (onLoraDataAvailable sampleDecls sampleCodec sampleNet sampleService 2
        { bytes := [0x00, 0x41], rssiText := "-90", snrText := "7",
          frequencyError := 120 }).1.loraFreq_ = 433774880 := by
  refine ⟨by decide, ?_, rfl, ?_⟩
  · rw [onLoraDataAvailable_btBytes]
    decide
  · rw [(onLoraDataAvailable_state _ _ _ _ _ _).1]
    decide

/-- C5, amended. For every radio packet the codec reports invalid,
`onLoraDataAvailable` makes no transmit call on the radio, writes nothing to
the IP socket and leaves `previousBeaconMs_` unchanged; it still writes the
KISS encoding of the packet to the serial channel and, when auto-correction is
enabled, still subtracts the frequency error from `loraFreq_` and calls
`setFrequency` with the result (otherwise `loraFreq_` is unchanged and
`setFrequency` is not called).  For every IP line the codec reports invalid,
`onAprsisDataAvailable` makes no transmit call on the radio, writes nothing to
the IP socket or the serial channel, does not call `setFrequency` and leaves
the whole state, `loraFreq_` and `previousBeaconMs_` included, unchanged. -/
theorem invalid_frame_gating {P : Type} (h : Decls) (codec : Codec P) (net : Net)
    (s : Service) (packetSize : Nat) (pkt : RadioPacket) (avail : List Char) :
    (codec.isValid (codec.fromBytes (loraReadLoop [] pkt.bytes).1) = false →
        radioCalls (onLoraDataAvailable h codec net s packetSize pkt).2 = [] ∧
        aprsisWrites (onLoraDataAvailable h codec net s packetSize pkt).2 = [] ∧
        (onLoraDataAvailable h codec net s packetSize pkt).1.previousBeaconMs_
          = s.previousBeaconMs_ ∧
        btBytes (onLoraDataAvailable h codec net s packetSize pkt).2 = kissFrame pkt.bytes ∧
        (onLoraDataAvailable h codec net s packetSize pkt).1.loraFreq_
          = (if s.autoCorrectFreq_ then wrapLong (s.loraFreq_ - pkt.frequencyError)
            else s.loraFreq_) ∧
        setFrequencyCalls (onLoraDataAvailable h codec net s packetSize pkt).2
          = (if s.autoCorrectFreq_ then [wrapLong (s.loraFreq_ - pkt.frequencyError)]
            else [])) ∧
      (codec.isValid (codec.fromString (aprsisReadLoop "" avail).1) = false →
        radioCalls (onAprsisDataAvailable codec s avail).2 = [] ∧
        aprsisWrites (onAprsisDataAvailable codec s avail).2 = [] ∧
        btBytes (onAprsisDataAvailable codec s avail).2 = [] ∧
        setFrequencyCalls (onAprsisDataAvailable codec s avail).2 = [] ∧
        (onAprsisDataAvailable codec s avail).1 = s) := by
  constructor
  · intro hv
    refine ⟨?_, ?_, (onLoraDataAvailable_state h codec net s packetSize pkt).2,
      onLoraDataAvailable_btBytes h codec net s packetSize pkt,
      (onLoraDataAvailable_state h codec net s packetSize pkt).1,
      onLoraDataAvailable_setFrequencyCalls h codec net s packetSize pkt⟩
    · rw [onLoraDataAvailable_invalid h codec net s packetSize pkt hv]
      cases s.autoCorrectFreq_ <;>
        simp [radioCalls_append, radioCalls_map_btWrite, radioCalls_cons, radioCalls_nil]
    · rw [onLoraDataAvailable_invalid h codec net s packetSize pkt hv]
      simp only [aprsisWrites_append, aprsisWrites_map_btWrite, List.nil_append]
      cases s.autoCorrectFreq_ <;> simp [aprsisWrites]
  · intro hv
    obtain ⟨l, hl⟩ := onAprsisDataAvailable_calls codec s avail
    rw [hl, hv]
    refine ⟨?_, ?_, ?_, ?_, rfl⟩
    · cases (s.enableIsToRf_ && decide ((aprsisReadLoop "" avail).1.length > 0)) <;>
        simp [radioCalls_append, radioCalls_map_log, radioCalls_cons, radioCalls_nil]
    · cases (s.enableIsToRf_ && decide ((aprsisReadLoop "" avail).1.length > 0)) <;>
        simp [aprsisWrites_append, aprsisWrites_map_log, aprsisWrites]
    · cases (s.enableIsToRf_ && decide ((aprsisReadLoop "" avail).1.length > 0)) <;>
        simp [btBytes_append, btBytes_map_log, btBytes]
    · cases (s.enableIsToRf_ && decide ((aprsisReadLoop "" avail).1.length > 0)) <;>
        simp [setFrequencyCalls_append, setFrequencyCalls_map_log, setFrequencyCalls]

/-- C5, amended, at the radio packet 0x00, 0x41 and at the IP line made of one
zero character, both invalid for the sample codec: no radio call in either
case. -/
theorem invalid_frame_gating_witness :
    radioCalls (onLoraDataAvailable sampleDecls sampleCodec sampleNet sampleService 2
        { bytes := [0x00, 0x41], rssiText := "-90", snrText := "7",
          frequencyError := 120 }).2 = [] ∧
      radioCalls (onAprsisDataAvailable sampleCodec sampleService
        [Char.ofNat 0, Char.ofNat 13, Char.ofNat 10]).2 = [] :=
  ⟨((invalid_frame_gating sampleDecls sampleCodec sampleNet sampleService 2
      { bytes := [0x00, 0x41], rssiText := "-90", snrText := "7", frequencyError := 120 }
      []).1 (by decide)).1,
    ((invalid_frame_gating sampleDecls sampleCodec sampleNet sampleService 2
      { bytes := [], rssiText := "", snrText := "", frequencyError := 0 }
      [Char.ofNat 0, Char.ofNat 13, Char.ofNat 10]).2 (by decide)).1⟩

/-- What the three calls of a successful `sendToLora` put on the air. -/
theorem transmissions_sendToLora (bs : List Byte) :
    transmissionsFrom none
      [Effect.loraBeginPacket, Effect.loraWriteBuf bs, Effect.loraEndPacket] = [bs] := by
  simp [transmissionsFrom]

/-! ## C6: routing of frames received from the radio -/

/-- C6 as stated fails: with client mode off and the repeater enabled, for the
valid packet 0x52, 0x41 that the codec reports to be repeated, no transmit
call is made on the radio when the serialization of the frame to binary fails
(`ToBinary` returns 0). -/
theorem radio_routing_counterexample :
    failingCodec.isValid (failingCodec.fromBytes (loraReadLoop [] [0x52, 0x41]).1) = true ∧
      (!sampleService.isClient_ && sampleService.enableRepeater_ &&
        (failingCodec.digirepeat (failingCodec.fromBytes (loraReadLoop [] [0x52, 0x41]).1)
          sampleService.ownCallsign_).1) = true ∧
      radioCalls (onLoraDataAvailable sampleDecls failingCodec sampleNet sampleService 2
        { bytes := [0x52, 0x41], rssiText := "-90", snrText := "7",
          frequencyError := 120 }).2 = [] := by
  refine ⟨by decide, by decide, ?_⟩
  rw [onLoraDataAvailable_radioCalls _ _ _ _ _ _ (by decide)]
  decide

/-- C6, amended. For every radio packet the codec reports valid and every
setting of the flags, `onLoraDataAvailable` passes the text form of the frame
to `println` of the IP socket exactly once if `!isClient_ && enableRfToIs_`
and not at all otherwise; it transmits the frame on the radio exactly once
(`beginPacket`, `write` of the serialized bytes, `endPacket`) if
`!isClient_ && enableRepeater_`, the codec's `Digirepeat` returns true and the
serialization of the frame to binary succeeds, and makes no transmit call
otherwise; and it always writes the KISS encoding of the packet to the serial
channel.  With client mode off, `enableRfToIs_` set and `enableRepeater_`
clear, the frame is sent up exactly once and not transmitted on the radio. -/
theorem radio_routing {P : Type} (h : Decls) (codec : Codec P) (net : Net)
    (s : Service) (packetSize : Nat) (pkt : RadioPacket)
    (hv : codec.isValid (codec.fromBytes (loraReadLoop [] pkt.bytes).1) = true) :
    aprsisLines (onLoraDataAvailable h codec net s packetSize pkt).2
        = (if !s.isClient_ && s.enableRfToIs_ then
            [codec.toString (codec.fromBytes (loraReadLoop [] pkt.bytes).1)
              (if s.addSignalReport_ then signalReport pkt else "")]
          else []) ∧
      radioCalls (onLoraDataAvailable h codec net s packetSize pkt).2
        = (if !s.isClient_ && s.enableRepeater_ &&
              (codec.digirepeat (codec.fromBytes (loraReadLoop [] pkt.bytes).1)
                s.ownCallsign_).1 &&
              decide (0 < (codec.toBinary (codec.digirepeat
                (codec.fromBytes (loraReadLoop [] pkt.bytes).1) s.ownCallsign_).2 512).1) then
            [Effect.loraBeginPacket,
              Effect.loraWriteBuf ((codec.toBinary (codec.digirepeat
                  (codec.fromBytes (loraReadLoop [] pkt.bytes).1) s.ownCallsign_).2 512).2.take
                (codec.toBinary (codec.digirepeat
                  (codec.fromBytes (loraReadLoop [] pkt.bytes).1) s.ownCallsign_).2 512).1.toNat),
              Effect.loraEndPacket]
          else []) ∧
      transmissions (onLoraDataAvailable h codec net s packetSize pkt).2
        = (if !s.isClient_ && s.enableRepeater_ &&
              (codec.digirepeat (codec.fromBytes (loraReadLoop [] pkt.bytes).1)
                s.ownCallsign_).1 &&
              decide (0 < (codec.toBinary (codec.digirepeat
                (codec.fromBytes (loraReadLoop [] pkt.bytes).1) s.ownCallsign_).2 512).1) then
            [(codec.toBinary (codec.digirepeat
                  (codec.fromBytes (loraReadLoop [] pkt.bytes).1) s.ownCallsign_).2 512).2.take
                (codec.toBinary (codec.digirepeat
                  (codec.fromBytes (loraReadLoop [] pkt.bytes).1) s.ownCallsign_).2 512).1.toNat]
          else []) ∧
      btBytes (onLoraDataAvailable h codec net s packetSize pkt).2 = kissFrame pkt.bytes ∧
      (s.isClient_ = false ∧ s.enableRfToIs_ = true ∧ s.enableRepeater_ = false →
        aprsisLines (onLoraDataAvailable h codec net s packetSize pkt).2
            = [codec.toString (codec.fromBytes (loraReadLoop [] pkt.bytes).1)
                (if s.addSignalReport_ then signalReport pkt else "")] ∧
          radioCalls (onLoraDataAvailable h codec net s packetSize pkt).2 = []) := by
  have hlines := onLoraDataAvailable_aprsisLines h codec net s packetSize pkt hv
  have hradio : radioCalls (onLoraDataAvailable h codec net s packetSize pkt).2
        = (if !s.isClient_ && s.enableRepeater_ &&
              (codec.digirepeat (codec.fromBytes (loraReadLoop [] pkt.bytes).1)
                s.ownCallsign_).1 &&
              decide (0 < (codec.toBinary (codec.digirepeat
                (codec.fromBytes (loraReadLoop [] pkt.bytes).1) s.ownCallsign_).2 512).1) then
            [Effect.loraBeginPacket,
              Effect.loraWriteBuf ((codec.toBinary (codec.digirepeat
                  (codec.fromBytes (loraReadLoop [] pkt.bytes).1) s.ownCallsign_).2 512).2.take
                (codec.toBinary (codec.digirepeat
                  (codec.fromBytes (loraReadLoop [] pkt.bytes).1) s.ownCallsign_).2 512).1.toNat),
              Effect.loraEndPacket]
          else []) := by
    rw [onLoraDataAvailable_radioCalls h codec net s packetSize pkt hv, sendToLora_radioCalls]
    by_cases hn : 0 < (codec.toBinary (codec.digirepeat
        (codec.fromBytes (loraReadLoop [] pkt.bytes).1) s.ownCallsign_).2 512).1
    · simp [hn]
    · simp [hn]
  refine ⟨hlines, hradio, ?_, onLoraDataAvailable_btBytes h codec net s packetSize pkt, ?_⟩
  · rw [transmissions, transmissionsFrom_radioCalls, hradio]
    split
    · exact transmissions_sendToLora _
    · rfl
  · rintro ⟨h1, h2, h3⟩
    rw [hlines, hradio]
    simp [h1, h2, h3]

/-- C6, amended, at the scenario of the specification: client mode off,
`enableRfToIs_` set, `enableIsToRf_` and `enableRepeater_` clear, for the valid
packet 0x52, 0x41: one line sent up, no transmit call on the radio. -/
theorem radio_routing_witness :
    sampleCodec.isValid (sampleCodec.fromBytes (loraReadLoop [] [0x52, 0x41]).1) = true ∧
      (aprsisLines (onLoraDataAvailable sampleDecls sampleCodec sampleNet
        { sampleService with enableIsToRf_ := false, enableRepeater_ := false } 2
        { bytes := [0x52, 0x41], rssiText := "-90", snrText := "7",
          frequencyError := 120 }).2).length = 1 ∧
      radioCalls (onLoraDataAvailable sampleDecls sampleCodec sampleNet
        { sampleService with enableIsToRf_ := false, enableRepeater_ := false } 2
        { bytes := [0x52, 0x41], rssiText := "-90", snrText := "7",
          frequencyError := 120 }).2 = [] :=
  ⟨by decide,
    by
      rw [((radio_routing sampleDecls sampleCodec sampleNet
        { sampleService with enableIsToRf_ := false, enableRepeater_ := false } 2
        { bytes := [0x52, 0x41], rssiText := "-90", snrText := "7", frequencyError := 120 }
        (by decide)).2.2.2.2 ⟨rfl, rfl, rfl⟩).1]
      rfl,
    ((radio_routing sampleDecls sampleCodec sampleNet
      { sampleService with enableIsToRf_ := false, enableRepeater_ := false } 2
      { bytes := [0x52, 0x41], rssiText := "-90", snrText := "7", frequencyError := 120 }
      (by decide)).2.2.2.2 ⟨rfl, rfl, rfl⟩).2⟩

/-! ## C7: routing of lines received from the IP transport -/

/-- C7. For every non-empty line read from the IP socket,
`onAprsisDataAvailable` transmits the binary form of the frame on the radio
exactly once (`beginPacket`, `write` of the serialized bytes, `endPacket`) if
`enableIsToRf_` is set, the codec reports the line valid and the serialization
to binary succeeds, and makes no transmit call on the radio in every other
case; in no case does it write to the IP socket or to the KISS serial channel. -/
theorem ip_routing {P : Type} (codec : Codec P) (s : Service) (avail : List Char)
    (hline : 0 < (aprsisReadLoop "" avail).1.length) :
    radioCalls (onAprsisDataAvailable codec s avail).2
        = (if s.enableIsToRf_ && codec.isValid (codec.fromString (aprsisReadLoop "" avail).1)
              && decide (0 <
                (codec.toBinary (codec.fromString (aprsisReadLoop "" avail).1) 512).1) then
            [Effect.loraBeginPacket,
              Effect.loraWriteBuf
                ((codec.toBinary (codec.fromString (aprsisReadLoop "" avail).1) 512).2.take
                  (codec.toBinary (codec.fromString (aprsisReadLoop "" avail).1) 512).1.toNat),
              Effect.loraEndPacket]
          else []) ∧
      transmissions (onAprsisDataAvailable codec s avail).2
        = (if s.enableIsToRf_ && codec.isValid (codec.fromString (aprsisReadLoop "" avail).1)
              && decide (0 <
                (codec.toBinary (codec.fromString (aprsisReadLoop "" avail).1) 512).1) then
            [(codec.toBinary (codec.fromString (aprsisReadLoop "" avail).1) 512).2.take
              (codec.toBinary (codec.fromString (aprsisReadLoop "" avail).1) 512).1.toNat]
          else []) ∧
      aprsisWrites (onAprsisDataAvailable codec s avail).2 = [] ∧
      btBytes (onAprsisDataAvailable codec s avail).2 = [] := by
  obtain ⟨l, hl⟩ := onAprsisDataAvailable_calls codec s avail
  have hradio : radioCalls (onAprsisDataAvailable codec s avail).2
        = (if s.enableIsToRf_ && codec.isValid (codec.fromString (aprsisReadLoop "" avail).1)
              && decide (0 <
                (codec.toBinary (codec.fromString (aprsisReadLoop "" avail).1) 512).1) then
            [Effect.loraBeginPacket,
              Effect.loraWriteBuf
                ((codec.toBinary (codec.fromString (aprsisReadLoop "" avail).1) 512).2.take
                  (codec.toBinary (codec.fromString (aprsisReadLoop "" avail).1) 512).1.toNat),
              Effect.loraEndPacket]
          else []) := by
    rw [hl]
    simp only [radioCalls_append, radioCalls_map_log, List.nil_append]
    cases s.enableIsToRf_ <;>
      cases codec.isValid (codec.fromString (aprsisReadLoop "" avail).1) <;>
      simp [hline, radioCalls_cons, radioCalls_nil, sendToLora_radioCalls]
  refine ⟨hradio, ?_, ?_, ?_⟩
  · rw [transmissions, transmissionsFrom_radioCalls, hradio]
    split
    · exact transmissions_sendToLora _
    · rfl
  · rw [hl]
    simp only [aprsisWrites_append, aprsisWrites_map_log, List.nil_append]
    cases s.enableIsToRf_ <;>
      cases codec.isValid (codec.fromString (aprsisReadLoop "" avail).1) <;>
      simp [hline, aprsisWrites, sendToLora_aprsisWrites]
  · rw [hl]
    simp only [btBytes_append, btBytes_map_log, List.nil_append]
    cases s.enableIsToRf_ <;>
      cases codec.isValid (codec.fromString (aprsisReadLoop "" avail).1) <;>
      simp [hline, btBytes, sendToLora_btBytes]

/-- C7 at the line `A>B` followed by carriage return and line feed: the three
bytes are transmitted once. -/
theorem ip_routing_witness :
    0 < (aprsisReadLoop "" [Char.ofNat 65, Char.ofNat 62, Char.ofNat 66, Char.ofNat 13,
        Char.ofNat 10]).1.length ∧
      transmissions (onAprsisDataAvailable sampleCodec sampleService
        [Char.ofNat 65, Char.ofNat 62, Char.ofNat 66, Char.ofNat 13, Char.ofNat 10]).2
        = [[0x41, 0x3E, 0x42]] :=
  ⟨by decide,
    ((ip_routing sampleCodec sampleService
      [Char.ofNat 65, Char.ofNat 62, Char.ofNat 66, Char.ofNat 13, Char.ofNat 10]
      (by decide)).2.1).trans (by decide)⟩

/-! ## C8: frequency correction -/

/-- C8. For every radio frame (valid or not) received while the operating
frequency is F with measured frequency error E, where F - E is a value of a
32-bit `long`: if auto-correction is enabled, after `onLoraDataAvailable` the
stored frequency is exactly F - E and `setFrequency` is called exactly once,
with F - E; if it is disabled, the stored frequency stays F and `setFrequency`
is not called. -/
theorem frequency_correction {P : Type} (h : Decls) (codec : Codec P) (net : Net)
    (s : Service) (packetSize : Nat) (pkt : RadioPacket)
    (hlo : -2147483648 ≤ s.loraFreq_ - pkt.frequencyError)
    (hhi : s.loraFreq_ - pkt.frequencyError < 2147483648) :
    (s.autoCorrectFreq_ = true →
        (onLoraDataAvailable h codec net s packetSize pkt).1.loraFreq_
            = s.loraFreq_ - pkt.frequencyError ∧
          setFrequencyCalls (onLoraDataAvailable h codec net s packetSize pkt).2
            = [s.loraFreq_ - pkt.frequencyError]) ∧
      (s.autoCorrectFreq_ = false →
        (onLoraDataAvailable h codec net s packetSize pkt).1.loraFreq_ = s.loraFreq_ ∧
          setFrequencyCalls (onLoraDataAvailable h codec net s packetSize pkt).2 = []) := by
  rw [(onLoraDataAvailable_state h codec net s packetSize pkt).1,
    onLoraDataAvailable_setFrequencyCalls, wrapLong_of_inRange _ hlo hhi]
  constructor
  · intro ha
    simp [ha]
  · intro ha
    simp [ha]

/-- C8 at F = 433775000 Hz and E = 120 Hz with auto-correction enabled, for a
valid packet: the frequency becomes 433774880 Hz, set once. -/
theorem frequency_correction_witness :
    (-2147483648 ≤ sampleService.loraFreq_ - 120 ∧
        sampleService.loraFreq_ - 120 < 2147483648) ∧
      (onLoraDataAvailable sampleDecls sampleCodec sampleNet sampleService 2
        { bytes := [0x52, 0x41], rssiText := "-90", snrText := "7",
          frequencyError := 120 }).1.loraFreq_ = 433775000 - 120 ∧
      setFrequencyCalls (onLoraDataAvailable sampleDecls sampleCodec sampleNet sampleService 2
        { bytes := [0x52, 0x41], rssiText := "-90", snrText := "7",
          frequencyError := 120 }).2 = [433775000 - 120] :=
  ⟨by decide,
    (frequency_correction sampleDecls sampleCodec sampleNet sampleService 2
      { bytes := [0x52, 0x41], rssiText := "-90", snrText := "7", frequencyError := 120 }
      (by decide) (by decide)).1 rfl⟩

/-! ## C9 and C10: the firing condition of the beacon -/

/-- The firing condition in terms of the three integers it depends on. -/
theorem beaconDue_iff (s : Service) (currentMs : Int) :
    beaconDue s currentMs = true ↔
      s.previousBeaconMs_ = 0 ∨
        wrapLong (wrapLong (s.aprsBeaconPeriodMinutes_ * 60) * 1000)
          ≤ wrapLong (currentMs - s.previousBeaconMs_) := by
  simp [beaconDue]

/-- The stored value differs from the integer by a multiple of 2^32. -/
theorem wrapLong_spec (x : Int) : ∃ k : Int, wrapLong x = x + k * 4294967296 := by
  refine ⟨-((x + 2147483648) / 4294967296), ?_⟩
  unfold wrapLong
  omega

theorem wrapLong_add_mul (x k : Int) : wrapLong (x + k * 4294967296) = wrapLong x := by
  unfold wrapLong
  rw [show x + k * 4294967296 + 2147483648 = x + 2147483648 + k * 4294967296 by ring,
    Int.add_mul_emod_self]

/-- Within half the range of the counter the signed test of the source agrees
with the elapsed time: for a last beacon at the clock reading T (stored value
not 0), a period P between 0 and 2^31 - 1 and an elapsed time d below 2^31, the
condition at the clock reading (T + d) mod 2^32 holds exactly when d is at
least P. -/
theorem beaconDue_half_range (s : Service) (T d : Nat)
    (hP0 : 0 ≤ s.aprsBeaconPeriodMinutes_)
    (hP : s.aprsBeaconPeriodMinutes_ * 60 * 1000 < 2147483648)
    (hT0 : T ≠ 0) (hT : T < 4294967296) (hprev : s.previousBeaconMs_ = wrapLong T)
    (hd : d < 2147483648) :
    beaconDue s (wrapLong (((T + d) % 4294967296 : Nat) : Int)) = true ↔
      s.aprsBeaconPeriodMinutes_ * 60 * 1000 ≤ d := by
  rw [beaconDue_iff, hprev]
  have h1 : wrapLong (s.aprsBeaconPeriodMinutes_ * 60) = s.aprsBeaconPeriodMinutes_ * 60 :=
    wrapLong_of_inRange _ (by omega) (by omega)
  have h2 : wrapLong (s.aprsBeaconPeriodMinutes_ * 60 * 1000)
      = s.aprsBeaconPeriodMinutes_ * 60 * 1000 :=
    wrapLong_of_inRange _ (by omega) (by omega)
  have h3 : wrapLong (T : Int) ≠ 0 := by
    unfold wrapLong
    omega
  have hj : (((T + d) % 4294967296 : Nat) : Int)
      = (T : Int) + d + (-(((T + d) / 4294967296 : Nat) : Int)) * 4294967296 := by
    omega
  obtain ⟨k4, e4⟩ := wrapLong_spec (((T + d) % 4294967296 : Nat) : Int)
  obtain ⟨k3, e3⟩ := wrapLong_spec (T : Int)
  have h5 : wrapLong (wrapLong (((T + d) % 4294967296 : Nat) : Int) - wrapLong (T : Int))
      = d := by
    have e : wrapLong (((T + d) % 4294967296 : Nat) : Int) - wrapLong (T : Int)
        = (d : Int) + (k4 - k3 - (((T + d) / 4294967296 : Nat) : Int)) * 4294967296 := by
      rw [e4, e3, hj]
      ring
    rw [e, wrapLong_add_mul]
    exact wrapLong_of_inRange _ (by omega) (by omega)
  rw [h1, h2, h5]
  constructor
  · rintro (h | h)
    · exact absurd h h3
    · exact h
  · intro h
    exact Or.inr h


/-- C9 as stated fails: with last_beacon = 0 and a period of 10 minutes, the
reading now = 5 lies in the interval from T to T + P, where the claim has the
condition false, and the condition is true. -/
theorem beacon_due_time_counterexample :
    sampleService.previousBeaconMs_ = 0 ∧
      sampleService.aprsBeaconPeriodMinutes_ * 60 * 1000 = 600000 ∧
      ((0 : Int) ≤ 5 ∧ (5 : Int) < 0 + 600000) ∧
      beaconDue sampleService (wrapLong 5) = true := by
  decide

/-- C9, amended. The firing condition of `sendPeriodicBeacon` is true whenever
last_beacon = 0; and for every last beacon at a clock reading T other than 0,
every period P = minutes * 60 * 1000 from 0 to 2^31 - 1 and every reading now
of the 32-bit counter, the condition is false whenever now lies in the
interval from T (included) to T + P (excluded), and true when now = T + P. -/
theorem beacon_due_time (s : Service) (T now : Nat)
    (hP0 : 0 ≤ s.aprsBeaconPeriodMinutes_)
    (hP : s.aprsBeaconPeriodMinutes_ * 60 * 1000 < 2147483648)
    (hT0 : T ≠ 0) (hprev : s.previousBeaconMs_ = wrapLong T)
    (hnow : now < 4294967296) :
    (∀ (s0 : Service) (currentMs : Int),
        s0.previousBeaconMs_ = 0 → beaconDue s0 currentMs = true) ∧
      (T ≤ now → (now : Int) < T + s.aprsBeaconPeriodMinutes_ * 60 * 1000 →
        beaconDue s (wrapLong now) = false) ∧
      ((now : Int) = T + s.aprsBeaconPeriodMinutes_ * 60 * 1000 →
        beaconDue s (wrapLong now) = true) := by
  refine ⟨?_, ?_, ?_⟩
  · intro s0 c h0
    rw [beaconDue_iff]
    exact Or.inl h0
  · intro hle hlt
    rw [← Bool.not_eq_true, beaconDue_iff, hprev]
    unfold wrapLong
    omega
  · intro heq
    rw [beaconDue_iff, hprev]
    unfold wrapLong
    omega

/-- C9, amended, at a last beacon at 5000 ms and a period of 10 minutes: not
due at 604999 ms, due at 605000 ms. -/
theorem beacon_due_time_witness :
    (0 ≤ ({ sampleService with previousBeaconMs_ := 5000 } : Service).aprsBeaconPeriodMinutes_ ∧
      ({ sampleService with previousBeaconMs_ := 5000 } : Service).aprsBeaconPeriodMinutes_
        * 60 * 1000 < 2147483648) ∧
      beaconDue { sampleService with previousBeaconMs_ := 5000 } (wrapLong (604999 : Nat))
        = false ∧
      beaconDue { sampleService with previousBeaconMs_ := 5000 } (wrapLong (605000 : Nat))
        = true :=
  ⟨by decide,
    (beacon_due_time { sampleService with previousBeaconMs_ := 5000 } 5000 604999
      (by decide) (by decide) (by decide) (by decide) (by decide)).2.1 (by decide)
      (by decide),
    (beacon_due_time { sampleService with previousBeaconMs_ := 5000 } 5000 605000
      (by decide) (by decide) (by decide) (by decide) (by decide)).2.2 (by decide)⟩

/-- C10 fails on the code: with the last beacon at T = 5000 ms, a period of 10
minutes (P = 600000 ms) and an elapsed time d = 2^31 ms, so that the counter
reads (T + d) mod 2^32 = 2147488648, the condition of `sendPeriodicBeacon` is
false although d is at least P and the unsigned 32-bit test
(now - T) mod 2^32 >= P is true: the difference of the two `long` is -2^31. -/
theorem beacon_wraparound_failure :
    ((5000 + 2147483648) % 4294967296 : Nat) = 2147488648 ∧
      wrapLong (2147488648 : Nat) - 5000 = -2147483648 ∧
      beaconDue { sampleService with previousBeaconMs_ := 5000 }
        (wrapLong (2147488648 : Nat)) = false ∧
      ({ sampleService with previousBeaconMs_ := 5000 } : Service).aprsBeaconPeriodMinutes_
        * 60 * 1000 ≤ 2147483648 ∧
      (600000 : Int) ≤ ((2147488648 : Int) - 5000) % 4294967296 := by
  decide

/-! ## C13: the login line -/

theorem string_length_pos_iff (t : String) : 0 < t.length ↔ t ≠ "" := by
  obtain ⟨l⟩ := t
  cases l with
  | nil => simp [String.length]
  | cons c cs =>
    simp only [String.length, List.length_cons, Nat.zero_lt_succ, true_iff]
    intro hc
    have := congrArg String.data hc
    simp at this

/-- The function `setup` leaves the login line as it built it. -/
theorem setup_aprsLogin (h : Decls) (v : String → Bool) (env : BringUp) (conf : Config)
    (s : Service) : (setup h v env conf s).1.aprsLogin_ = buildAprsLogin h conf := by
  simp only [setup, setupWifi, reconnectAprsis]
  repeat' split
  all_goals rfl

/-- C13. For every configuration with callsign c, password p and filter f, the
login line built by `setup` is "user " c " pass " p " vers " version, followed
by " filter " f when f is not empty, followed by one line feed, where version
is the constant `CfgLoraprsVersion`; for callsign N0CALL, password 12345 and
an empty filter it is "user N0CALL pass 12345 vers " version and a line feed. -/
theorem login_line (h : Decls) (v : String → Bool) (env : BringUp) (conf : Config)
    (s : Service) :
    (setup h v env conf s).1.aprsLogin_
        = "user " ++ conf.AprsLogin ++ " pass " ++ conf.AprsPass ++ " vers "
            ++ h.CfgLoraprsVersion
            ++ (if conf.AprsFilter ≠ "" then " filter " ++ conf.AprsFilter else "")
            ++ "\n" ∧
      (setup h v env sampleConfig s).1.aprsLogin_
        = "user N0CALL pass 12345 vers " ++ h.CfgLoraprsVersion ++ "\n" ∧
      (setup sampleDecls v env sampleConfig s).1.aprsLogin_
        = "user N0CALL pass 12345 vers LoRAPRS 0.1\n" := by
  refine ⟨?_, ?_, ?_⟩
  · rw [setup_aprsLogin]
    simp only [buildAprsLogin, string_length_pos_iff]
    split
    · rfl
    · simp
  · rw [setup_aprsLogin]
    rfl
  · rw [setup_aprsLogin]
    decide

/-! ## C16: the serialization check of `sendToLora` -/

/-- C16. For every frame, with n the number that the codec's `ToBinary` into
the 512-byte buffer returns: `sendToLora` returns true exactly when n > 0, and
it then makes exactly the calls `beginPacket`, `write` of the first n bytes of
the buffer, `endPacket`, which complete one transmission; when n <= 0 it
returns false and its only call is diagnostic output: no call on the radio. -/
theorem sendToLora_checked {P : Type} (codec : Codec P) (payload : P) :
    ((sendToLora codec payload).1 = true ↔ 0 < (codec.toBinary payload 512).1) ∧
      (0 < (codec.toBinary payload 512).1 →
        (sendToLora codec payload).2
            = [Effect.loraBeginPacket,
                Effect.loraWriteBuf ((codec.toBinary payload 512).2.take
                  (codec.toBinary payload 512).1.toNat),
                Effect.loraEndPacket] ∧
          transmissions (sendToLora codec payload).2
            = [(codec.toBinary payload 512).2.take (codec.toBinary payload 512).1.toNat]) ∧
      ((codec.toBinary payload 512).1 ≤ 0 →
        (sendToLora codec payload).1 = false ∧
          (sendToLora codec payload).2 = [Effect.log "Failed to serialize payload"] ∧
          radioCalls (sendToLora codec payload).2 = [] ∧
          setFrequencyCalls (sendToLora codec payload).2 = []) := by
  by_cases hn : (codec.toBinary payload 512).1 ≤ 0
  · have hn2 : ¬ 0 < (codec.toBinary payload 512).1 := not_lt.mpr hn
    refine ⟨by simp [sendToLora, hn, hn2], fun h0 => absurd h0 hn2, fun _ => ?_⟩
    simp [sendToLora, hn, radioCalls_cons, radioCalls_nil, setFrequencyCalls]
  · have hn2 : 0 < (codec.toBinary payload 512).1 := not_le.mp hn
    refine ⟨by simp [sendToLora, hn, hn2], fun _ => ?_, fun h0 => absurd h0 hn⟩
    simp [sendToLora, hn, transmissions, transmissions_sendToLora]

/-- C16 at the frame 0x41, 0x42 with the sample codec (n = 2, one transmission)
and with the failing codec (n = 0, no call on the radio). -/
theorem sendToLora_checked_witness :
    transmissions (sendToLora sampleCodec [0x41, 0x42]).2 = [[0x41, 0x42]] ∧
      radioCalls (sendToLora failingCodec [0x41, 0x42]).2 = [] :=
  ⟨((sendToLora_checked sampleCodec [0x41, 0x42]).2.1 (by decide)).2.trans (by decide),
    ((sendToLora_checked failingCodec [0x41, 0x42]).2.2 (by decide)).2.2.1⟩

/-! ## C17 and C20: the receive buffer -/

/-- The bytes the read loop stores: the bytes read that are neither 0xC0 nor
0xDB, appended to what the buffer held. -/
theorem loraReadLoop_rxBuf (rxBuf bytes : List Byte) :
    (loraReadLoop rxBuf bytes).1
      = rxBuf ++ bytes.filter (fun b => decide (b ≠ 0xC0 ∧ b ≠ 0xDB)) := by
  induction bytes generalizing rxBuf with
  | nil => simp [loraReadLoop]
  | cons b rest ih =>
    by_cases h1 : b = 0xC0
    · simp [loraReadLoop, h1, ih]
    · by_cases h2 : b = 0xDB
      · simp [loraReadLoop, h2, ih]
      · simp [loraReadLoop, h1, h2, ih]

/-- The stores of the read loop go to consecutive indices from `rxBufIndex`
on, one for every byte read that is neither 0xC0 nor 0xDB. -/
theorem loraStoreIndices_eq (rxBufIndex : Nat) (bytes : List Byte) :
    loraStoreIndices rxBufIndex bytes
      = (List.range (bytes.filter (fun b => decide (b ≠ 0xC0 ∧ b ≠ 0xDB))).length).map
          (fun i => rxBufIndex + i) := by
  induction bytes generalizing rxBufIndex with
  | nil => simp [loraStoreIndices]
  | cons b rest ih =>
    by_cases h1 : b = 0xC0
    · simp [loraStoreIndices, h1, ih]
    · by_cases h2 : b = 0xDB
      · simp [loraStoreIndices, h2, ih]
      · simp only [loraStoreIndices, KissMarker.Fend, KissMarker.Fesc, h1, h2, if_false, ih]
        have hf : (b :: rest).filter (fun b => decide (b ≠ 0xC0 ∧ b ≠ 0xDB))
            = b :: rest.filter (fun b => decide (b ≠ 0xC0 ∧ b ≠ 0xDB)) := by
          simp [List.filter_cons, h1, h2]
        rw [hf, List.length_cons, List.range_succ_eq_map, List.map_cons, List.map_map]
        congr 1
        apply List.map_congr_left
        intro i _
        simp only [Function.comp, Nat.succ_eq_add_one]
        omega

/-- C17 fails on the code: for the radio packet 0x41, 0xC0, 0x42, 0xDB the codec
is handed the two bytes 0x41, 0x42, while the four bytes of the packet are
KISS-encoded onto the serial channel. -/
theorem rxBuf_drops_marker_bytes :
    (loraReadLoop [] [0x41, 0xC0, 0x42, 0xDB]).1 = [0x41, 0x42] ∧
      btBytes (loraReadLoop [] [0x41, 0xC0, 0x42, 0xDB]).2
        = (([0x41, 0xC0, 0x42, 0xDB] : List Byte).map esc).flatten ∧
      (loraReadLoop [] [0x41, 0xC0, 0x42, 0xDB]).1 ≠ [0x41, 0xC0, 0x42, 0xDB] := by
  decide

/-- C20. For every size `packetSize` of the array and every packet for which
the radio yields at most `packetSize` bytes, every store
`rxBuf[rxBufIndex++] = rxByte` of the read loop is at an index below
`packetSize` (the stores go to the indices 0, 1, ... in order), and when the
loop ends `rxBufIndex` is the number of bytes read that differ from 0xC0 and
from 0xDB, which is at most `packetSize`. -/
theorem rxBuf_bound (packetSize : Nat) (bytes : List Byte)
    (hlen : bytes.length ≤ packetSize) :
    (∀ i ∈ loraStoreIndices 0 bytes, i < packetSize) ∧
      loraStoreIndices 0 bytes = List.range (loraReadLoop [] bytes).1.length ∧
      (loraReadLoop [] bytes).1.length
        = bytes.countP (fun b => decide (b ≠ 0xC0 ∧ b ≠ 0xDB)) ∧
      (loraReadLoop [] bytes).1.length ≤ packetSize := by
  have hle : (bytes.filter (fun b => decide (b ≠ 0xC0 ∧ b ≠ 0xDB))).length ≤ bytes.length :=
    List.length_filter_le _ _
  refine ⟨?_, ?_, ?_, ?_⟩
  · intro i hi
    rw [loraStoreIndices_eq] at hi
    simp only [Nat.zero_add, List.map_id', List.mem_range] at hi
    omega
  · rw [loraStoreIndices_eq, loraReadLoop_rxBuf]
    simp
  · rw [loraReadLoop_rxBuf, List.countP_eq_length_filter]
    simp
  · rw [loraReadLoop_rxBuf]
    simp only [List.nil_append]
    omega

/-- C20 at a packet of four bytes, two of them markers, with an array of four
bytes: two stores, at the indices 0 and 1. -/
theorem rxBuf_bound_witness :
    ([0x41, 0xC0, 0x42, 0xDB] : List Byte).length ≤ 4 ∧
      loraStoreIndices 0 [0x41, 0xC0, 0x42, 0xDB] = [0, 1] ∧
      (loraReadLoop [] [0x41, 0xC0, 0x42, 0xDB]).1.length ≤ 4 :=
  ⟨by decide,
    ((rxBuf_bound 4 [0x41, 0xC0, 0x42, 0xDB] (by decide)).2.1).trans (by decide),
    (rxBuf_bound 4 [0x41, 0xC0, 0x42, 0xDB] (by decide)).2.2.2⟩

/-! ## Lemmas on the calls made on the IP socket -/

@[simp] theorem isAprsis_connect (t : String) (n : Nat) :
    (Effect.aprsisConnect t n).isAprsis = true := rfl

@[simp] theorem isAprsis_print (t : String) : (Effect.aprsisPrint t).isAprsis = true := rfl

@[simp] theorem isAprsis_println (t : String) :
    (Effect.aprsisPrintln t).isAprsis = true := rfl

@[simp] theorem isAprsis_stop : Effect.aprsisStop.isAprsis = true := rfl

@[simp] theorem isAprsis_btWrite (b : Byte) : (Effect.btWrite b).isAprsis = false := rfl

@[simp] theorem isAprsis_beginPacket : Effect.loraBeginPacket.isAprsis = false := rfl

@[simp] theorem isAprsis_write (b : Byte) : (Effect.loraWrite b).isAprsis = false := rfl

@[simp] theorem isAprsis_writeBuf (bs : List Byte) :
    (Effect.loraWriteBuf bs).isAprsis = false := rfl

@[simp] theorem isAprsis_endPacket : Effect.loraEndPacket.isAprsis = false := rfl

@[simp] theorem isAprsis_setFrequency (f : Int) :
    (Effect.loraSetFrequency f).isAprsis = false := rfl

@[simp] theorem isAprsis_wifiReconnect : Effect.wifiReconnect.isAprsis = false := rfl

@[simp] theorem isAprsis_log (t : String) : (Effect.log t).isAprsis = false := rfl

@[simp] theorem isAprsis_periph (t : String) (l : List Int) :
    (Effect.periph t l).isAprsis = false := rfl

theorem aprsisCalls_nil : aprsisCalls [] = [] := rfl

theorem aprsisCalls_cons (e : Effect) (es : List Effect) :
    aprsisCalls (e :: es) = if e.isAprsis then e :: aprsisCalls es else aprsisCalls es := by
  simp only [aprsisCalls, List.filter_cons]

theorem aprsisCalls_append (a b : List Effect) :
    aprsisCalls (a ++ b) = aprsisCalls a ++ aprsisCalls b := by
  simp [aprsisCalls]

theorem wifiLoop_aprsisCalls (n : Nat) :
    aprsisCalls (List.replicate n [Effect.wifiReconnect, Effect.log "."]).flatten = [] := by
  induction n with
  | zero => rfl
  | succ k ih =>
    simp only [List.replicate_succ, List.flatten_cons, aprsisCalls_append, ih]
    simp [aprsisCalls_cons, aprsisCalls_nil]

theorem reconnectWifi_aprsisCalls (net : Net) (s : Service) :
    aprsisCalls (reconnectWifi net s).2 = [] := by
  simp only [reconnectWifi, aprsisCalls_append, wifiLoop_aprsisCalls]
  simp [aprsisCalls_cons, aprsisCalls_nil]

theorem service_eta_wifi (s : Service) : { s with wifiConnected := s.wifiConnected } = s := by
  cases s
  rfl

/-- The socket calls of `sendToAprsis` on a socket that is connected at entry. -/
theorem sendToAprsis_connected (h : Decls) (net : Net) (s : Service) (msg : String)
    (hc : s.aprsisConnected = true) :
    aprsisCalls (sendToAprsis h net s msg).2
        = Effect.aprsisPrintln msg :: (if s.persistentConn_ then [] else [Effect.aprsisStop]) ∧
      (sendToAprsis h net s msg).1.aprsisConnected = s.persistentConn_ := by
  obtain ⟨st, cmd, prev, client, freq, call, login, host, port, beacon, minutes, auto,
    report, persistent, rfToIs, isToRf, repeater, beaconOn, wifi, conn⟩ := s
  simp only at hc
  subst hc
  simp only [sendToAprsis]
  split
  · cases persistent <;>
      simp [reconnectWifi, aprsisCalls_append, wifiLoop_aprsisCalls, aprsisCalls_cons,
        aprsisCalls_nil]
  · cases persistent <;> simp [aprsisCalls_cons, aprsisCalls_nil]

/-- The socket calls of `sendToAprsis` on a socket that is not connected at
entry, when the header asks for the connection. -/
theorem sendToAprsis_disconnected (h : Decls) (net : Net) (s : Service) (msg : String)
    (hd : s.aprsisConnected = false)
    (hn : ∀ w, h.needsAprsis { s with wifiConnected := w } = true) :
    aprsisCalls (sendToAprsis h net s msg).2
        = Effect.aprsisConnect s.aprsHost_ s.aprsPort_
            :: ((if net.connectOk then [Effect.aprsisPrint s.aprsLogin_] else [])
              ++ Effect.aprsisPrintln msg
                :: (if s.persistentConn_ then [] else [Effect.aprsisStop])) ∧
      (sendToAprsis h net s msg).1.aprsisConnected = (net.connectOk && s.persistentConn_) := by
  have hn1 := hn true
  have hn2 := hn s.wifiConnected
  rw [service_eta_wifi] at hn2
  obtain ⟨st, cmd, prev, client, freq, call, login, host, port, beacon, minutes, auto,
    report, persistent, rfToIs, isToRf, repeater, beaconOn, wifi, conn⟩ := s
  simp only at hd
  subst hd
  simp only [sendToAprsis]
  split
  · cases persistent <;> cases hk : net.connectOk <;>
      simp [reconnectWifi, reconnectAprsis, hn1, hk, aprsisCalls_append,
        wifiLoop_aprsisCalls, aprsisCalls_cons, aprsisCalls_nil]
  · cases persistent <;> cases hk : net.connectOk <;>
      simp [reconnectAprsis, hn2, hk, aprsisCalls_append, aprsisCalls_cons, aprsisCalls_nil]

/-! ## C14: sending while the socket is not connected -/

/-- C14 as stated fails: called on a socket that is not connected, with a
connect attempt that fails (`reconnectAprsis` returns false), `sendToAprsis`
still passes the message to `println` of the socket. -/
theorem send_while_disconnected_counterexample :
    sampleService.aprsisConnected = false ∧
      (reconnectAprsis unreachableNet sampleService).1 = false ∧
      aprsisLines (sendToAprsis sampleDecls unreachableNet sampleService "N0CALL>APRS:hi").2
        = ["N0CALL>APRS:hi"] ∧
      aprsisCalls (sendToAprsis sampleDecls unreachableNet sampleService "N0CALL>APRS:hi").2
        = [Effect.aprsisConnect "rotate.aprs2.net" 14580,
            Effect.aprsisPrintln "N0CALL>APRS:hi", Effect.aprsisStop] := by
  refine ⟨rfl, rfl, sendToAprsis_aprsisLines _ _ _ _, ?_⟩
  rw [(sendToAprsis_disconnected sampleDecls unreachableNet sampleService _ rfl
    (fun _ => rfl)).1]
  rfl

/-- C14, amended. For every message, when `sendToAprsis` is called while the IP
socket is not connected (and the header predicate `needsAprsis` holds) it first
attempts exactly one reconnect (`reconnectAprsis`: one `connect`, followed by
the login line when it succeeds); whether or not that attempt succeeds it then
passes the message to `println` of the socket exactly once, and closes the
socket in transient mode.  When the attempt fails the socket is not connected
afterwards.  Nothing is queued: besides the two connection flags the state of
the service is unchanged. -/
theorem send_while_disconnected (h : Decls) (net : Net) (s : Service) (msg : String)
    (hd : s.aprsisConnected = false)
    (hn : ∀ w, h.needsAprsis { s with wifiConnected := w } = true) :
    aprsisCalls (sendToAprsis h net s msg).2
        = Effect.aprsisConnect s.aprsHost_ s.aprsPort_
            :: ((if net.connectOk then [Effect.aprsisPrint s.aprsLogin_] else [])
              ++ Effect.aprsisPrintln msg
                :: (if s.persistentConn_ then [] else [Effect.aprsisStop])) ∧
      aprsisLines (sendToAprsis h net s msg).2 = [msg] ∧
      (net.connectOk = false → (sendToAprsis h net s msg).1.aprsisConnected = false) ∧
      ∃ w a, (sendToAprsis h net s msg).1
        = { s with wifiConnected := w, aprsisConnected := a } := by
  refine ⟨(sendToAprsis_disconnected h net s msg hd hn).1,
    sendToAprsis_aprsisLines h net s msg, ?_, sendToAprsis_state h net s msg⟩
  intro hk
  rw [(sendToAprsis_disconnected h net s msg hd hn).2, hk]
  rfl

/-- C14, amended, at the sample gateway with a connect attempt that fails: one
`connect`, then `println` of the message, then `stop`. -/
theorem send_while_disconnected_witness :
    sampleService.aprsisConnected = false ∧
      (∀ w, sampleDecls.needsAprsis { sampleService with wifiConnected := w } = true) ∧
      aprsisLines (sendToAprsis sampleDecls unreachableNet sampleService "N0CALL>APRS:hi").2
        = ["N0CALL>APRS:hi"] ∧
      (sendToAprsis sampleDecls unreachableNet sampleService "N0CALL>APRS:hi").1.aprsisConnected
        = false :=
  ⟨rfl, fun _ => rfl,
    (send_while_disconnected sampleDecls unreachableNet sampleService "N0CALL>APRS:hi" rfl
      (fun _ => rfl)).2.1,
    (send_while_disconnected sampleDecls unreachableNet sampleService "N0CALL>APRS:hi" rfl
      (fun _ => rfl)).2.2.1 rfl⟩

/-! ## C15: closing after a send -/

/-- C15. For every message that `sendToAprsis` sends on a socket that is
connected: in transient mode (`persistentConn_` false) the calls on the socket
are `println` of the message immediately followed by `stop`, and the socket is
not connected when `sendToAprsis` returns; in persistent mode the only call on
the socket is `println` of the message, no `stop`, and the socket is connected
as before. -/
theorem close_after_send (h : Decls) (net : Net) (s : Service) (msg : String)
    (hc : s.aprsisConnected = true) :
    (s.persistentConn_ = false →
        aprsisCalls (sendToAprsis h net s msg).2
            = [Effect.aprsisPrintln msg, Effect.aprsisStop] ∧
          (sendToAprsis h net s msg).1.aprsisConnected = false) ∧
      (s.persistentConn_ = true →
        aprsisCalls (sendToAprsis h net s msg).2 = [Effect.aprsisPrintln msg] ∧
          Effect.aprsisStop ∉ (sendToAprsis h net s msg).2 ∧
          (sendToAprsis h net s msg).1.aprsisConnected = true) := by
  obtain ⟨hcalls, hconn⟩ := sendToAprsis_connected h net s msg hc
  constructor
  · intro hp
    rw [hcalls, hconn, hp]
    exact ⟨rfl, rfl⟩
  · intro hp
    rw [hcalls, hconn, hp]
    refine ⟨rfl, ?_, rfl⟩
    intro hmem
    have : Effect.aprsisStop ∈ aprsisCalls (sendToAprsis h net s msg).2 := by
      simp only [aprsisCalls, List.mem_filter]
      exact ⟨hmem, rfl⟩
    rw [hcalls, hp] at this
    simp at this

/-- C15 at the sample gateway with the socket connected, in transient and in
persistent mode. -/
theorem close_after_send_witness :
    ({ sampleService with aprsisConnected := true } : Service).aprsisConnected = true ∧
      (sendToAprsis sampleDecls sampleNet { sampleService with aprsisConnected := true }
        "N0CALL>APRS:hi").1.aprsisConnected = false ∧
      (sendToAprsis sampleDecls sampleNet
        { sampleService with aprsisConnected := true, persistentConn_ := true }
        "N0CALL>APRS:hi").1.aprsisConnected = true :=
  ⟨rfl,
    ((close_after_send sampleDecls sampleNet { sampleService with aprsisConnected := true }
      "N0CALL>APRS:hi" rfl).1 rfl).2,
    ((close_after_send sampleDecls sampleNet
      { sampleService with aprsisConnected := true, persistentConn_ := true }
      "N0CALL>APRS:hi" rfl).2 rfl).2.2⟩

/-! ## C19: the command stored by the decoder -/

/-- One byte keeps the stored command in step with the state. -/
theorem onBtByte_command (s : Service) (b : Byte)
    (h1 : s.kissState_ = KissState.GetData ∨ s.kissState_ = KissState.Escape →
      s.kissCmd_ = KissCmd.Data)
    (h2 : s.kissState_ = KissState.Void ∨ s.kissState_ = KissState.GetCmd →
      s.kissCmd_ = KissCmd.NoCmd) :
    ((onBtByte s b).1.kissState_ = KissState.GetData ∨
        (onBtByte s b).1.kissState_ = KissState.Escape →
      (onBtByte s b).1.kissCmd_ = KissCmd.Data) ∧
    ((onBtByte s b).1.kissState_ = KissState.Void ∨
        (onBtByte s b).1.kissState_ = KissState.GetCmd →
      (onBtByte s b).1.kissCmd_ = KissCmd.NoCmd) := by
  obtain ⟨st, cmd⟩ := s
  cases st <;> simp only [onBtByte, kissResetState, KissMarker.Fend, KissMarker.Fesc,
    KissMarker.Tfend, KissMarker.Tfesc, KissCmd.dataByte, ne_eq, ite_not] <;>
    (repeat' split) <;> simp_all

/-- The invariant of the decoder over a byte sequence. -/
theorem onBtDataAvailable_command (bytes : List Byte) (s : Service)
    (h1 : s.kissState_ = KissState.GetData ∨ s.kissState_ = KissState.Escape →
      s.kissCmd_ = KissCmd.Data)
    (h2 : s.kissState_ = KissState.Void ∨ s.kissState_ = KissState.GetCmd →
      s.kissCmd_ = KissCmd.NoCmd) :
    ((onBtDataAvailable s bytes).1.kissState_ = KissState.GetData ∨
        (onBtDataAvailable s bytes).1.kissState_ = KissState.Escape →
      (onBtDataAvailable s bytes).1.kissCmd_ = KissCmd.Data) ∧
    ((onBtDataAvailable s bytes).1.kissState_ = KissState.Void ∨
        (onBtDataAvailable s bytes).1.kissState_ = KissState.GetCmd →
      (onBtDataAvailable s bytes).1.kissCmd_ = KissCmd.NoCmd) := by
  induction bytes generalizing s with
  | nil => exact ⟨h1, h2⟩
  | cons b rest ih =>
    simp only [onBtDataAvailable]
    exact ih _ (onBtByte_command s b h1 h2).1 (onBtByte_command s b h1 h2).2

/-- C19. In every decoder state reached from the state the constructor leaves
(`Void`, `NoCmd`) by feeding any byte sequence to `onBtDataAvailable`, the
stored command is `Data` whenever the state is `GetData` or `Escape` and
`NoCmd` whenever the state is `Void` or `GetCmd`; hence a FrameEnd received in
`GetData` always calls `endPacket` and returns the decoder to `Void`. -/
theorem decoder_command_invariant (s0 : Service) (bytes : List Byte) :
    ((onBtDataAvailable (construct s0) bytes).1.kissState_ = KissState.GetData ∨
        (onBtDataAvailable (construct s0) bytes).1.kissState_ = KissState.Escape →
      (onBtDataAvailable (construct s0) bytes).1.kissCmd_ = KissCmd.Data) ∧
    ((onBtDataAvailable (construct s0) bytes).1.kissState_ = KissState.Void ∨
        (onBtDataAvailable (construct s0) bytes).1.kissState_ = KissState.GetCmd →
      (onBtDataAvailable (construct s0) bytes).1.kissCmd_ = KissCmd.NoCmd) ∧
    ((onBtDataAvailable (construct s0) bytes).1.kissState_ = KissState.GetData →
      (onBtByte (onBtDataAvailable (construct s0) bytes).1 0xC0).2 = [Effect.loraEndPacket] ∧
        (onBtByte (onBtDataAvailable (construct s0) bytes).1 0xC0).1.kissState_
          = KissState.Void) := by
  have hinv := onBtDataAvailable_command bytes (construct s0)
    (by simp [construct]) (by simp [construct])
  refine ⟨hinv.1, hinv.2, ?_⟩
  intro hst
  have hcmd := hinv.1 (Or.inl hst)
  generalize (onBtDataAvailable (construct s0) bytes).1 = s at hst hcmd
  obtain ⟨st, cmd⟩ := s
  simp only at hst hcmd
  subst hst hcmd
  simp [onBtByte, kissResetState]

/-- C19 after the bytes 0xC0, 0x00, 0x41 from the constructed state: the state
is `GetData`, the command `Data`, and a FrameEnd closes the transmission. -/
theorem decoder_command_invariant_witness :
    (onBtDataAvailable (construct sampleService) [0xC0, 0x00, 0x41]).1.kissState_
        = KissState.GetData ∧
      (onBtDataAvailable (construct sampleService) [0xC0, 0x00, 0x41]).1.kissCmd_
        = KissCmd.Data ∧
      (onBtByte (onBtDataAvailable (construct sampleService) [0xC0, 0x00, 0x41]).1 0xC0).2
        = [Effect.loraEndPacket] :=
  ⟨by decide,
    (decoder_command_invariant sampleService [0xC0, 0x00, 0x41]).1 (Or.inl (by decide)),
    ((decoder_command_invariant sampleService [0xC0, 0x00, 0x41]).2.2 (by decide)).1⟩

/-! ## Lemmas on the beacon -/

theorem sendPeriodicBeacon_not_due {P : Type} (h : Decls) (codec : Codec P) (net : Net)
    (s : Service) (millis : Nat) (hdue : beaconDue s (wrapLong (millis : Int)) = false) :
    sendPeriodicBeacon h codec net s millis = (s, []) := by
  simp [sendPeriodicBeacon, hdue]

/-- The calls of `sendPeriodicBeacon` when the beacon is due. -/
theorem sendPeriodicBeacon_due_calls {P : Type} (h : Decls) (codec : Codec P) (net : Net)
    (s : Service) (millis : Nat) (hdue : beaconDue s (wrapLong (millis : Int)) = true) :
    (sendPeriodicBeacon h codec net s millis).2
      = (if codec.isValid (codec.fromString s.aprsBeacon_) then
          (sendToLora codec (codec.fromString s.aprsBeacon_)).2
            ++ (if s.enableRfToIs_ then
                (sendToAprsis h net s
                  (codec.toString (codec.fromString s.aprsBeacon_) "")).2
              else [])
            ++ [Effect.log "Periodic beacon is sent"]
        else [Effect.log "Beacon payload is invalid"]) := by
  simp only [sendPeriodicBeacon, hdue, if_true]
  cases codec.isValid (codec.fromString s.aprsBeacon_) <;> cases s.enableRfToIs_ <;> simp

/-- The state after `sendPeriodicBeacon` when the beacon is due: the time of
the last beacon is the reading, and besides it only the two connection flags
can differ. -/
theorem sendPeriodicBeacon_due_state {P : Type} (h : Decls) (codec : Codec P) (net : Net)
    (s : Service) (millis : Nat) (hdue : beaconDue s (wrapLong (millis : Int)) = true) :
    ∃ w a, (sendPeriodicBeacon h codec net s millis).1
      = { s with previousBeaconMs_ := wrapLong (millis : Int), wifiConnected := w,
                 aprsisConnected := a } := by
  simp only [sendPeriodicBeacon, hdue, if_true]
  cases codec.isValid (codec.fromString s.aprsBeacon_) <;> cases hr : s.enableRfToIs_
  · exact ⟨s.wifiConnected, s.aprsisConnected, by simp [hr]⟩
  · exact ⟨s.wifiConnected, s.aprsisConnected, by simp [hr]⟩
  · exact ⟨s.wifiConnected, s.aprsisConnected, by simp [hr]⟩
  · obtain ⟨w, a, hst⟩ := sendToAprsis_state h net s
      (codec.toString (codec.fromString s.aprsBeacon_) "")
    exact ⟨w, a, by simp [hst, hr]⟩

/-- When the beacon fires, it fires no earlier than one period after the last
beacon: for a last beacon at the reading t (not 0), a period between 0 and
2^31 - 1 and a reading now of the 32-bit counter that is not before t. -/
theorem beaconDue_elapsed (s : Service) (t now : Nat)
    (hP0 : 0 ≤ s.aprsBeaconPeriodMinutes_)
    (hP : s.aprsBeaconPeriodMinutes_ * 60 * 1000 < 2147483648)
    (ht0 : t ≠ 0) (hprev : s.previousBeaconMs_ = wrapLong (t : Int))
    (hle : t ≤ now) (hnow : now < 4294967296)
    (hdue : beaconDue s (wrapLong (now : Int)) = true) :
    (t : Int) + s.aprsBeaconPeriodMinutes_ * 60 * 1000 ≤ now := by
  rw [beaconDue_iff, hprev] at hdue
  have h1 : wrapLong (s.aprsBeaconPeriodMinutes_ * 60) = s.aprsBeaconPeriodMinutes_ * 60 :=
    wrapLong_of_inRange _ (by omega) (by omega)
  have h2 : wrapLong (s.aprsBeaconPeriodMinutes_ * 60 * 1000)
      = s.aprsBeaconPeriodMinutes_ * 60 * 1000 :=
    wrapLong_of_inRange _ (by omega) (by omega)
  have h3 : wrapLong (t : Int) ≠ 0 := by
    unfold wrapLong
    omega
  obtain ⟨k4, e4⟩ := wrapLong_spec (now : Int)
  obtain ⟨k3, e3⟩ := wrapLong_spec (t : Int)
  have e : wrapLong (now : Int) - wrapLong (t : Int)
      = ((now : Int) - t) + (k4 - k3) * 4294967296 := by
    rw [e4, e3]
    ring
  rw [h1, h2, e, wrapLong_add_mul] at hdue
  rcases hdue with h0 | hge
  · exact absurd h0 h3
  · have hd : wrapLong ((now : Int) - t) ≤ (now : Int) - t := by
      unfold wrapLong
      omega
    omega

/-! ## C11: what a firing beacon does -/

/-- C11 as stated fails: the beacon is due and its payload valid, and no
transmit call is made on the radio, because the serialization of the payload to
binary fails (`ToBinary` returns 0). -/
theorem beacon_firing_effects_counterexample :
    beaconDue sampleService (wrapLong ((5000 : Nat) : Int)) = true ∧
      failingCodec.isValid (failingCodec.fromString sampleService.aprsBeacon_) = true ∧
      radioCalls (sendPeriodicBeacon sampleDecls failingCodec sampleNet sampleService 5000).2
        = [] := by
  refine ⟨by decide, by decide, ?_⟩
  have hv : failingCodec.isValid (failingCodec.fromString sampleService.aprsBeacon_) = true := by
    decide
  have hr : sampleService.enableRfToIs_ = true := rfl
  have hn : ∀ p : List Byte, ¬ (0 < (failingCodec.toBinary p 512).1) := fun p => by
    show ¬ ((0 : Int) < 0)
    decide
  rw [sendPeriodicBeacon_due_calls _ _ _ _ _ (by decide), hv, hr]
  simp [radioCalls_append, sendToLora_radioCalls, sendToAprsis_radioCalls, radioCalls_cons,
    radioCalls_nil, hn]

/-- C11, amended. Whenever `sendPeriodicBeacon` finds the beacon due at the
reading now, afterwards last_beacon is now stored as a 32-bit `long` (now
itself below 2^31), whether or not the configured payload is valid.  If the
payload is valid, it is transmitted on the radio exactly once when its
serialization to binary succeeds and no transmit call is made when that fails,
and it is passed to `println` of the IP socket exactly once if `enableRfToIs_`
is set and not at all otherwise.  If the payload is invalid nothing is sent on
any transport.  Whenever the beacon is not due, the state is unchanged and no
call is made. -/
theorem beacon_firing_effects {P : Type} (h : Decls) (codec : Codec P) (net : Net)
    (s : Service) (millis : Nat) :
    (beaconDue s (wrapLong (millis : Int)) = true →
        (sendPeriodicBeacon h codec net s millis).1.previousBeaconMs_
            = wrapLong (millis : Int) ∧
          (millis < 2147483648 →
            (sendPeriodicBeacon h codec net s millis).1.previousBeaconMs_ = millis) ∧
          (codec.isValid (codec.fromString s.aprsBeacon_) = true →
            radioCalls (sendPeriodicBeacon h codec net s millis).2
                = (if 0 < (codec.toBinary (codec.fromString s.aprsBeacon_) 512).1 then
                    [Effect.loraBeginPacket,
                      Effect.loraWriteBuf
                        ((codec.toBinary (codec.fromString s.aprsBeacon_) 512).2.take
                          (codec.toBinary (codec.fromString s.aprsBeacon_) 512).1.toNat),
                      Effect.loraEndPacket]
                  else []) ∧
              aprsisLines (sendPeriodicBeacon h codec net s millis).2
                = (if s.enableRfToIs_ then
                    [codec.toString (codec.fromString s.aprsBeacon_) ""]
                  else []) ∧
              btBytes (sendPeriodicBeacon h codec net s millis).2 = []) ∧
          (codec.isValid (codec.fromString s.aprsBeacon_) = false →
            radioCalls (sendPeriodicBeacon h codec net s millis).2 = [] ∧
              aprsisWrites (sendPeriodicBeacon h codec net s millis).2 = [] ∧
              btBytes (sendPeriodicBeacon h codec net s millis).2 = [])) ∧
      (beaconDue s (wrapLong (millis : Int)) = false →
        sendPeriodicBeacon h codec net s millis = (s, [])) := by
  refine ⟨fun hdue => ?_, sendPeriodicBeacon_not_due h codec net s millis⟩
  obtain ⟨w, a, hst⟩ := sendPeriodicBeacon_due_state h codec net s millis hdue
  have hcalls := sendPeriodicBeacon_due_calls h codec net s millis hdue
  refine ⟨by rw [hst], ?_, ?_, ?_⟩
  · intro hlt
    rw [hst]
    exact wrapLong_of_inRange _ (by omega) (by omega)
  · intro hv
    rw [hcalls, hv]
    refine ⟨?_, ?_, ?_⟩
    · cases s.enableRfToIs_ <;>
        simp [radioCalls_append, sendToLora_radioCalls, sendToAprsis_radioCalls,
          radioCalls_cons, radioCalls_nil]
    · cases s.enableRfToIs_ <;>
        simp [aprsisLines_append, sendToLora_aprsisLines, sendToAprsis_aprsisLines,
          aprsisLines]
    · cases s.enableRfToIs_ <;>
        simp [btBytes_append, sendToLora_btBytes, sendToAprsis_btBytes, btBytes]
  · intro hv
    rw [hcalls, hv]
    simp [radioCalls_cons, radioCalls_nil, aprsisWrites, btBytes]

/-- C11, amended, at the sample gateway: at the first call (last_beacon 0) the
beacon is due, afterwards last_beacon is the reading 5000, and one line is sent
up; with a last beacon at 5000 the call at 6000 changes nothing. -/
theorem beacon_firing_effects_witness :
    beaconDue sampleService (wrapLong ((5000 : Nat) : Int)) = true ∧
      (sendPeriodicBeacon sampleDecls sampleCodec sampleNet sampleService
        5000).1.previousBeaconMs_ = 5000 ∧
      sendPeriodicBeacon sampleDecls sampleCodec sampleNet
          { sampleService with previousBeaconMs_ := 5000 } 6000
        = ({ sampleService with previousBeaconMs_ := 5000 }, []) :=
  ⟨by decide,
    ((beacon_firing_effects sampleDecls sampleCodec sampleNet sampleService 5000).1
      (by decide)).2.1 (by decide),
    (beacon_firing_effects sampleDecls sampleCodec sampleNet
      { sampleService with previousBeaconMs_ := 5000 } 6000).2 (by decide)⟩

/-! ## C12: the spacing of the beacons over a run -/

/-- After `setup` the time of the last beacon is 0 and the period is the
configured one. -/
theorem setup_beacon (h : Decls) (v : String → Bool) (env : BringUp) (conf : Config)
    (s : Service) :
    (setup h v env conf s).1.previousBeaconMs_ = 0 ∧
      (setup h v env conf s).1.aprsBeaconPeriodMinutes_ = conf.AprsRawBeaconPeriodMinutes := by
  simp only [setup, setupWifi, reconnectAprsis]
  repeat' split
  all_goals exact ⟨rfl, rfl⟩

/-- From a last beacon at the reading t, the firings over non-decreasing
readings are at least one period apart from t and from one another. -/
theorem beaconFirings_spaced {P : Type} (h : Decls) (codec : Codec P)
    (calls : List (Nat × Net)) (s : Service) (t : Nat)
    (hP0 : 0 ≤ s.aprsBeaconPeriodMinutes_)
    (hP : s.aprsBeaconPeriodMinutes_ * 60 * 1000 < 2147483648)
    (ht0 : t ≠ 0) (hprev : s.previousBeaconMs_ = wrapLong (t : Int))
    (hsorted : List.Pairwise (fun a b => a ≤ b) (calls.map Prod.fst))
    (hafter : ∀ c ∈ calls, t ≤ c.1)
    (hlt : ∀ c ∈ calls, c.1 < 4294967296) :
    List.Chain (fun a b : Nat => (a : Int) + s.aprsBeaconPeriodMinutes_ * 60 * 1000 ≤ b) t
        (beaconFirings h codec s calls) ∧
      ∀ b ∈ beaconFirings h codec s calls,
        (t : Int) + s.aprsBeaconPeriodMinutes_ * 60 * 1000 ≤ b := by
  induction calls generalizing s t with
  | nil => simp [beaconFirings]
  | cons c rest ih =>
    have hc_after : t ≤ c.1 := hafter c (List.mem_cons_self _ _)
    have hc_lt : c.1 < 4294967296 := hlt c (List.mem_cons_self _ _)
    simp only [List.map_cons, List.pairwise_cons] at hsorted
    obtain ⟨hc_le, hrest⟩ := hsorted
    have hlt_rest : ∀ d ∈ rest, d.1 < 4294967296 :=
      fun d hd => hlt d (List.mem_cons_of_mem _ hd)
    cases hdue : beaconDue s (wrapLong (c.1 : Int)) with
    | false =>
      have hs := sendPeriodicBeacon_not_due h codec c.2 s c.1 hdue
      simp only [beaconFirings, hdue, hs, Bool.false_eq_true, if_false]
      exact ih s t hP0 hP ht0 hprev hrest
        (fun d hd => hafter d (List.mem_cons_of_mem _ hd)) hlt_rest
    | true =>
      obtain ⟨w, a, hst⟩ := sendPeriodicBeacon_due_state h codec c.2 s c.1 hdue
      have hel := beaconDue_elapsed s t c.1 hP0 hP ht0 hprev hc_after hc_lt hdue
      have hnext := ih (sendPeriodicBeacon h codec c.2 s c.1).1 c.1
        (by rw [hst]; exact hP0) (by rw [hst]; exact hP) (by omega) (by rw [hst])
        hrest
        (fun d hd => hc_le d.1 (List.mem_map_of_mem Prod.fst hd)) hlt_rest
      have hmin : (sendPeriodicBeacon h codec c.2 s c.1).1.aprsBeaconPeriodMinutes_
          = s.aprsBeaconPeriodMinutes_ := by rw [hst]
      rw [hmin] at hnext
      simp only [beaconFirings, hdue, if_true]
      refine ⟨List.Chain.cons hel hnext.1, ?_⟩
      intro b hb
      rcases List.mem_cons.mp hb with hb | hb
      · rw [hb]
        exact hel
      · have := hnext.2 b hb
        omega

/-- C12 as stated fails: after `setup` with a period of 10 minutes, for the
non-decreasing readings 0 and 1 the beacon fires at both, 1 ms apart: the first
firing leaves last_beacon at 0, which stands for a beacon never sent. -/
theorem beacon_spacing_counterexample :
    beaconFirings sampleDecls sampleCodec
        (setup sampleDecls (fun _ => true) sampleBringUp sampleConfig sampleService).1
        [(0, sampleNet), (1, sampleNet)] = [0, 1] ∧
      sampleConfig.AprsRawBeaconPeriodMinutes * 60 * 1000 = 600000 := by
  decide

/-- C12, amended. For every sequence of `sendPeriodicBeacon` calls with
non-decreasing readings of the 32-bit counter, none of them 0, starting from
last_beacon = 0 after `setup` with a beacon period of P minutes (P * 60000 from
0 to 2^31 - 1), the first call fires, any two consecutive firings are at least
P * 60000 ms apart, and no later beacon fires before P * 60000 ms have elapsed
since the first. -/
theorem beacon_spacing {P : Type} (h : Decls) (codec : Codec P) (v : String → Bool)
    (env : BringUp) (conf : Config) (s0 : Service) (first : Nat × Net)
    (rest : List (Nat × Net))
    (hP0 : 0 ≤ conf.AprsRawBeaconPeriodMinutes)
    (hP : conf.AprsRawBeaconPeriodMinutes * 60 * 1000 < 2147483648)
    (hsorted : List.Pairwise (fun a b => a ≤ b) ((first :: rest).map Prod.fst))
    (hfirst : first.1 ≠ 0)
    (hlt : ∀ c ∈ first :: rest, c.1 < 4294967296) :
    ∃ later : List Nat,
      beaconFirings h codec (setup h v env conf s0).1 (first :: rest) = first.1 :: later ∧
        List.Chain' (fun a b : Nat =>
          (a : Int) + conf.AprsRawBeaconPeriodMinutes * 60 * 1000 ≤ b) (first.1 :: later) ∧
        ∀ b ∈ later, (first.1 : Int) + conf.AprsRawBeaconPeriodMinutes * 60 * 1000 ≤ b := by
  obtain ⟨hprev0, hmin⟩ := setup_beacon h v env conf s0
  have hdue : beaconDue (setup h v env conf s0).1 (wrapLong (first.1 : Int)) = true := by
    rw [beaconDue_iff]
    exact Or.inl hprev0
  obtain ⟨w, a, hst⟩ := sendPeriodicBeacon_due_state h codec first.2
    (setup h v env conf s0).1 first.1 hdue
  simp only [List.map_cons, List.pairwise_cons] at hsorted
  obtain ⟨hc_le, hrest⟩ := hsorted
  have hsp := beaconFirings_spaced h codec rest
    (sendPeriodicBeacon h codec first.2 (setup h v env conf s0).1 first.1).1 first.1
    (by rw [hst]; simp only; rw [hmin]; exact hP0)
    (by rw [hst]; simp only; rw [hmin]; exact hP) hfirst (by rw [hst]) hrest
    (fun d hd => hc_le d.1 (List.mem_map_of_mem Prod.fst hd))
    (fun d hd => hlt d (List.mem_cons_of_mem _ hd))
  have hmin2 : (sendPeriodicBeacon h codec first.2 (setup h v env conf s0).1
      first.1).1.aprsBeaconPeriodMinutes_ = conf.AprsRawBeaconPeriodMinutes := by
    rw [hst]
    exact hmin
  rw [hmin2] at hsp
  refine ⟨_, ?_, hsp.1, hsp.2⟩
  simp only [beaconFirings, hdue, if_true]

/-- C12, amended, with a period of 10 minutes at the readings 5000, 300000,
605000 and 700000: the beacon fires at 5000 and at 605000 only. -/
theorem beacon_spacing_witness :
    (0 ≤ sampleConfig.AprsRawBeaconPeriodMinutes ∧
        sampleConfig.AprsRawBeaconPeriodMinutes * 60 * 1000 < 2147483648) ∧
      beaconFirings sampleDecls sampleCodec
          (setup sampleDecls (fun _ => true) sampleBringUp sampleConfig sampleService).1
          [(5000, sampleNet), (300000, sampleNet), (605000, sampleNet), (700000, sampleNet)]
        = [5000, 605000] ∧
      ∃ later : List Nat,
        beaconFirings sampleDecls sampleCodec
            (setup sampleDecls (fun _ => true) sampleBringUp sampleConfig sampleService).1
            ((5000, sampleNet) ::
              [(300000, sampleNet), (605000, sampleNet), (700000, sampleNet)])
          = 5000 :: later ∧
        ∀ b ∈ later, ((5000 : Nat) : Int) + 10 * 60 * 1000 ≤ b :=
  ⟨by decide, by decide,
    (beacon_spacing sampleDecls sampleCodec (fun _ => true) sampleBringUp sampleConfig
      sampleService (5000, sampleNet)
      [(300000, sampleNet), (605000, sampleNet), (700000, sampleNet)]
      (by decide) (by decide) (by decide) (by decide) (by decide)).imp
      (fun _ hl => ⟨hl.1, hl.2.2⟩)⟩

/-! ## Lemmas on open transmissions -/

theorem openAfter_append (a b : List Effect) (cur : Option (List Byte)) :
    openAfter cur (a ++ b) = openAfter (openAfter cur a) b := by
  induction a generalizing cur with
  | nil => rfl
  | cons e es ih => simp [openAfter, ih]

theorem beginsWhileOpen_append (a b : List Effect) (cur : Option (List Byte)) :
    beginsWhileOpen cur (a ++ b)
      = beginsWhileOpen cur a + beginsWhileOpen (openAfter cur a) b := by
  induction a generalizing cur with
  | nil => simp [beginsWhileOpen, openAfter]
  | cons e es ih => simp [beginsWhileOpen, openAfter, ih, Nat.add_assoc]

theorem openAfter_radioCalls (es : List Effect) (cur : Option (List Byte)) :
    openAfter cur es = openAfter cur (radioCalls es) := by
  induction es generalizing cur with
  | nil => rfl
  | cons e rest ih =>
    cases e <;> simp [radioCalls_cons, openAfter] <;> exact ih _

theorem beginsWhileOpen_radioCalls (es : List Effect) (cur : Option (List Byte)) :
    beginsWhileOpen cur es = beginsWhileOpen cur (radioCalls es) := by
  induction es generalizing cur with
  | nil => rfl
  | cons e rest ih =>
    cases e <;> simp [radioCalls_cons, beginsWhileOpen] <;> exact ih _

/-- A list of calls whose transmit calls are none or one whole transmission
opens nothing over an open transmission and leaves none open. -/
theorem atomic_calls (es : List Effect)
    (hat : radioCalls es = [] ∨
      ∃ bs, radioCalls es
        = [Effect.loraBeginPacket, Effect.loraWriteBuf bs, Effect.loraEndPacket]) :
    beginsWhileOpen none es = 0 ∧ openAfter none es = none := by
  rw [beginsWhileOpen_radioCalls, openAfter_radioCalls]
  rcases hat with h0 | ⟨bs, h1⟩
  · rw [h0]
    exact ⟨rfl, rfl⟩
  · rw [h1]
    simp [beginsWhileOpen, openAfter]

theorem sendToLora_atomic {P : Type} (codec : Codec P) (p : P) :
    radioCalls (sendToLora codec p).2 = [] ∨
      ∃ bs, radioCalls (sendToLora codec p).2
        = [Effect.loraBeginPacket, Effect.loraWriteBuf bs, Effect.loraEndPacket] := by
  rw [sendToLora_radioCalls]
  split
  · exact Or.inr ⟨_, rfl⟩
  · exact Or.inl rfl

theorem onLoraDataAvailable_atomic {P : Type} (h : Decls) (codec : Codec P) (net : Net)
    (s : Service) (packetSize : Nat) (pkt : RadioPacket) :
    radioCalls (onLoraDataAvailable h codec net s packetSize pkt).2 = [] ∨
      ∃ bs, radioCalls (onLoraDataAvailable h codec net s packetSize pkt).2
        = [Effect.loraBeginPacket, Effect.loraWriteBuf bs, Effect.loraEndPacket] := by
  cases hv : codec.isValid (codec.fromBytes (loraReadLoop [] pkt.bytes).1) with
  | false =>
    left
    rw [onLoraDataAvailable_invalid h codec net s packetSize pkt hv]
    cases s.autoCorrectFreq_ <;>
      simp [radioCalls_append, radioCalls_map_btWrite, radioCalls_cons, radioCalls_nil]
  | true =>
    rw [onLoraDataAvailable_radioCalls h codec net s packetSize pkt hv]
    split
    · exact sendToLora_atomic codec _
    · exact Or.inl rfl

theorem onAprsisDataAvailable_atomic {P : Type} (codec : Codec P) (s : Service)
    (avail : List Char) :
    radioCalls (onAprsisDataAvailable codec s avail).2 = [] ∨
      ∃ bs, radioCalls (onAprsisDataAvailable codec s avail).2
        = [Effect.loraBeginPacket, Effect.loraWriteBuf bs, Effect.loraEndPacket] := by
  obtain ⟨l, hl⟩ := onAprsisDataAvailable_calls codec s avail
  rw [hl]
  simp only [radioCalls_append, radioCalls_map_log, List.nil_append]
  split
  · split
    · exact sendToLora_atomic codec _
    · exact Or.inl (by simp [radioCalls_cons, radioCalls_nil])
  · exact Or.inl rfl

theorem sendPeriodicBeacon_atomic {P : Type} (h : Decls) (codec : Codec P) (net : Net)
    (s : Service) (millis : Nat) :
    radioCalls (sendPeriodicBeacon h codec net s millis).2 = [] ∨
      ∃ bs, radioCalls (sendPeriodicBeacon h codec net s millis).2
        = [Effect.loraBeginPacket, Effect.loraWriteBuf bs, Effect.loraEndPacket] := by
  cases hdue : beaconDue s (wrapLong (millis : Int)) with
  | false =>
    rw [sendPeriodicBeacon_not_due h codec net s millis hdue]
    exact Or.inl rfl
  | true =>
    rw [sendPeriodicBeacon_due_calls h codec net s millis hdue]
    split
    · have hrest : radioCalls ((if s.enableRfToIs_ = true then
          (sendToAprsis h net s (codec.toString (codec.fromString s.aprsBeacon_) "")).2
          else []) ++ [Effect.log "Periodic beacon is sent"]) = [] := by
        cases s.enableRfToIs_ <;>
          simp [radioCalls_append, sendToAprsis_radioCalls, radioCalls_cons, radioCalls_nil]
      rw [List.append_assoc, radioCalls_append, hrest, List.append_nil]
      exact sendToLora_atomic codec _
    · exact Or.inl (by simp [radioCalls_cons, radioCalls_nil])

/-- The operations other than `onBtDataAvailable` leave the decoder alone. -/
theorem onLoraDataAvailable_kiss {P : Type} (h : Decls) (codec : Codec P) (net : Net)
    (s : Service) (packetSize : Nat) (pkt : RadioPacket) :
    (onLoraDataAvailable h codec net s packetSize pkt).1.kissState_ = s.kissState_ ∧
      (onLoraDataAvailable h codec net s packetSize pkt).1.kissCmd_ = s.kissCmd_ := by
  obtain ⟨st, cmd, prev, client, freq, call, login, host, port, beacon, minutes, auto,
    report, persistent, rfToIs, isToRf, repeater, beaconOn, wifi, conn⟩ := s
  cases hv : codec.isValid (codec.fromBytes (loraReadLoop [] pkt.bytes).1) <;>
    cases auto <;> cases client <;> cases rfToIs <;>
    simp [onLoraDataAvailable, hv] <;>
    (constructor <;>
      (obtain ⟨w, a, hst⟩ := sendToAprsis_state h net _ _
       rw [hst]))

/-- One serial byte that gives up no frame in `Escape` keeps the decoder and
the radio driver in step (a transmission is open exactly while the decoder is
inside a frame, and the command is then `Data`) and opens no transmission over
an open one. -/
theorem onBtByte_in_step (s : Service) (b : Byte) (cur : Option (List Byte))
    (hout : outsideFrame s = true → cur = none)
    (hin : outsideFrame s = false → cur.isSome = true ∧ s.kissCmd_ = KissCmd.Data)
    (hok : ¬ (s.kissState_ = KissState.Escape ∧ b ≠ 0xDC ∧ b ≠ 0xDD)) :
    beginsWhileOpen cur (onBtByte s b).2 = 0 ∧
      (outsideFrame (onBtByte s b).1 = true → openAfter cur (onBtByte s b).2 = none) ∧
      (outsideFrame (onBtByte s b).1 = false →
        (openAfter cur (onBtByte s b).2).isSome = true ∧
          (onBtByte s b).1.kissCmd_ = KissCmd.Data) := by
  obtain ⟨st, cmd⟩ := s
  cases st
  · have hc : cur = none := hout (by simp [outsideFrame])
    subst hc
    by_cases h1 : b = 0xC0 <;>
      simp [onBtByte, h1, beginsWhileOpen, openAfter, outsideFrame]
  · have hc : cur = none := hout (by simp [outsideFrame])
    subst hc
    by_cases h1 : b = 0xC0
    · simp [onBtByte, h1, beginsWhileOpen, openAfter, outsideFrame]
    · by_cases h2 : b = 0x00 <;>
        simp [onBtByte, h1, h2, beginsWhileOpen, openAfter, outsideFrame, kissResetState]
  · obtain ⟨hsome, hcmd⟩ := hin (by simp [outsideFrame])
    simp only at hcmd
    subst hcmd
    obtain ⟨p, hp⟩ := Option.isSome_iff_exists.mp hsome
    subst hp
    by_cases h1 : b = 0xDB
    · simp [onBtByte, h1, beginsWhileOpen, openAfter, outsideFrame]
    · by_cases h2 : b = 0xC0 <;>
        simp [onBtByte, h1, h2, beginsWhileOpen, openAfter, outsideFrame, kissResetState]
  · obtain ⟨hsome, hcmd⟩ := hin (by simp [outsideFrame])
    simp only at hcmd
    subst hcmd
    obtain ⟨p, hp⟩ := Option.isSome_iff_exists.mp hsome
    subst hp
    by_cases h1 : b = 0xDC
    · simp [onBtByte, h1, beginsWhileOpen, openAfter, outsideFrame]
    · by_cases h2 : b = 0xDD
      · simp [onBtByte, h2, beginsWhileOpen, openAfter, outsideFrame]
      · exact absurd ⟨rfl, h1, h2⟩ hok

/-- A chunk of serial bytes that gives up no frame in `Escape` keeps the
decoder and the radio driver in step and opens no transmission over an open
one. -/
theorem onBtDataAvailable_in_step (bytes : List Byte) (s : Service)
    (cur : Option (List Byte))
    (hout : outsideFrame s = true → cur = none)
    (hin : outsideFrame s = false → cur.isSome = true ∧ s.kissCmd_ = KissCmd.Data)
    (hok : noEscapeAbort s bytes = true) :
    beginsWhileOpen cur (onBtDataAvailable s bytes).2 = 0 ∧
      (outsideFrame (onBtDataAvailable s bytes).1 = true →
        openAfter cur (onBtDataAvailable s bytes).2 = none) ∧
      (outsideFrame (onBtDataAvailable s bytes).1 = false →
        (openAfter cur (onBtDataAvailable s bytes).2).isSome = true ∧
          (onBtDataAvailable s bytes).1.kissCmd_ = KissCmd.Data) := by
  induction bytes generalizing s cur with
  | nil => exact ⟨rfl, hout, hin⟩
  | cons b rest ih =>
    simp only [noEscapeAbort, Bool.and_eq_true, Bool.not_eq_true', decide_eq_false_iff_not]
      at hok
    obtain ⟨hb, hrest⟩ := hok
    obtain ⟨h0, h1, h2⟩ := onBtByte_in_step s b cur hout hin hb
    obtain ⟨g0, g1, g2⟩ := ih (onBtByte s b).1 (openAfter cur (onBtByte s b).2) h1 h2 hrest
    simp only [onBtDataAvailable, beginsWhileOpen_append, openAfter_append]
    exact ⟨by omega, g1, g2⟩

/-- An operation other than `onBtDataAvailable`, run while no transmission is
open, opens nothing over an open transmission, leaves none open and leaves the
decoder alone. -/
theorem runOp_in_step {P : Type} (h : Decls) (codec : Codec P) (s : Service) (op : Op)
    (cur : Option (List Byte))
    (hout : outsideFrame s = true → cur = none)
    (hin : outsideFrame s = false → cur.isSome = true ∧ s.kissCmd_ = KissCmd.Data)
    (hok : opAllowed s op = true) :
    beginsWhileOpen cur (runOp h codec s op).2 = 0 ∧
      (outsideFrame (runOp h codec s op).1 = true →
        openAfter cur (runOp h codec s op).2 = none) ∧
      (outsideFrame (runOp h codec s op).1 = false →
        (openAfter cur (runOp h codec s op).2).isSome = true ∧
          (runOp h codec s op).1.kissCmd_ = KissCmd.Data) := by
  cases op with
  | bt bytes => exact onBtDataAvailable_in_step bytes s cur hout hin hok
  | lora net packetSize pkt =>
    have hc : cur = none := hout hok
    subst hc
    obtain ⟨k1, k2⟩ := onLoraDataAvailable_kiss h codec net s packetSize pkt
    obtain ⟨a1, a2⟩ := atomic_calls _ (onLoraDataAvailable_atomic h codec net s packetSize pkt)
    have ho0 : outsideFrame s = true := hok
    have ho : outsideFrame (onLoraDataAvailable h codec net s packetSize pkt).1 = true := by
      simpa [outsideFrame, k1] using ho0
    simp only [runOp]
    exact ⟨a1, fun _ => a2, fun hf => by rw [ho] at hf; exact absurd hf (by simp)⟩
  | aprsis avail =>
    have hc : cur = none := hout hok
    subst hc
    obtain ⟨a1, a2⟩ := atomic_calls _ (onAprsisDataAvailable_atomic codec s avail)
    obtain ⟨l, hl⟩ := onAprsisDataAvailable_calls codec s avail
    have hs : (onAprsisDataAvailable codec s avail).1 = s := by rw [hl]
    have ho : outsideFrame s = true := hok
    simp only [runOp]
    exact ⟨a1, fun _ => a2, fun hf => by rw [hs, ho] at hf; exact absurd hf (by simp)⟩
  | beacon net millis =>
    have hc : cur = none := hout hok
    subst hc
    obtain ⟨a1, a2⟩ := atomic_calls _ (sendPeriodicBeacon_atomic h codec net s millis)
    have ho0 : outsideFrame s = true := hok
    have ho : outsideFrame (sendPeriodicBeacon h codec net s millis).1 = true := by
      cases hdue : beaconDue s (wrapLong (millis : Int)) with
      | false =>
        rw [sendPeriodicBeacon_not_due h codec net s millis hdue]
        exact ho0
      | true =>
        obtain ⟨w, a, hst⟩ := sendPeriodicBeacon_due_state h codec net s millis hdue
        rw [hst]
        simpa [outsideFrame] using ho0
    simp only [runOp]
    exact ⟨a1, fun _ => a2, fun hf => by rw [ho] at hf; exact absurd hf (by simp)⟩

/-- An orderly sequence of operations opens no transmission over an open one. -/
theorem runOps_in_step {P : Type} (h : Decls) (codec : Codec P) (ops : List Op)
    (s : Service) (cur : Option (List Byte))
    (hout : outsideFrame s = true → cur = none)
    (hin : outsideFrame s = false → cur.isSome = true ∧ s.kissCmd_ = KissCmd.Data)
    (hok : orderly h codec s ops = true) :
    beginsWhileOpen cur (runOps h codec s ops).2 = 0 := by
  induction ops generalizing s cur with
  | nil => rfl
  | cons op rest ih =>
    simp only [orderly, Bool.and_eq_true] at hok
    obtain ⟨h0, h1, h2⟩ := runOp_in_step h codec s op cur hout hin hok.1
    have g := ih (runOp h codec s op).1 (openAfter cur (runOp h codec s op).2) h1 h2 hok.2
    simp only [runOps, beginsWhileOpen_append]
    omega

/-- While the decoder is inside a frame the radio driver holds an open
transmission, whatever bytes were decoded before. -/
theorem onBtDataAvailable_open (bytes : List Byte) (s : Service) (cur : Option (List Byte))
    (hin : outsideFrame s = false → cur.isSome = true) :
    outsideFrame (onBtDataAvailable s bytes).1 = false →
      (openAfter cur (onBtDataAvailable s bytes).2).isSome = true := by
  induction bytes generalizing s cur with
  | nil => exact hin
  | cons b rest ih =>
    simp only [onBtDataAvailable, openAfter_append]
    apply ih
    obtain ⟨st, cmd⟩ := s
    cases st <;> simp only [onBtByte, kissResetState, KissMarker.Fend, KissMarker.Fesc,
      KissMarker.Tfend, KissMarker.Tfesc, KissCmd.dataByte, ne_eq, ite_not] <;>
      (repeat' split) <;> simp_all [outsideFrame, openAfter]

/-! ## C18: one open transmission at a time -/

/-- C18 as stated fails, from the state the constructor leaves.  A frame given
up in `Escape` (serial bytes 0xC0, 0x00, 0x41, 0xDB, 0x42) has no `endPacket`,
so the `beginPacket` of the next frame (0xC0, 0x00) comes while it is open.
And a frame received from the IP transport while the decoder is inside a frame
(serial bytes 0xC0, 0x00, 0x41 so far) is transmitted by `sendToLora`, whose
`beginPacket` comes while the transmission of the decoder is open. -/
theorem single_open_transmission_counterexample :
    beginsWhileOpen none
        (runOps sampleDecls sampleCodec (construct sampleService)
          [Op.bt [0xC0, 0x00, 0x41, 0xDB, 0x42, 0xC0, 0x00]]).2 = 1 ∧
      beginsWhileOpen none
        (runOps sampleDecls sampleCodec (construct sampleService)
          [Op.bt [0xC0, 0x00, 0x41],
            Op.aprsis [Char.ofNat 65, Char.ofNat 62, Char.ofNat 66, Char.ofNat 13,
              Char.ofNat 10],
            Op.bt [0x42, 0xC0]]).2 = 1 := by
  decide

/-- C18, amended. From the state the constructor leaves, for every sequence of
the controller's operations in which no serial byte meets the decoder in
`Escape` with a value other than 0xDC and 0xDD, and in which
`onLoraDataAvailable`, `onAprsisDataAvailable` and `sendPeriodicBeacon` run
only while the decoder is outside a frame (`Void` or `GetCmd`), `beginPacket`
is never called while a transmission opened before is not yet closed.  A frame
that the decoder gives up in `Escape` gets no `endPacket`: the decoder is in
`Void` with the transmission still open, until the next `beginPacket`. -/
theorem single_open_transmission {P : Type} (h : Decls) (codec : Codec P) (s0 : Service)
    (ops : List Op) :
    (orderly h codec (construct s0) ops = true →
        beginsWhileOpen none (runOps h codec (construct s0) ops).2 = 0) ∧
      (∀ (pre : List Byte) (b : Byte),
        (onBtDataAvailable (construct s0) pre).1.kissState_ = KissState.Escape →
        b ≠ 0xDC → b ≠ 0xDD →
          (onBtDataAvailable (construct s0) (pre ++ [b])).1.kissState_ = KissState.Void ∧
            (onBtDataAvailable (construct s0) (pre ++ [b])).2
              = (onBtDataAvailable (construct s0) pre).2 ∧
            (openAfter none (onBtDataAvailable (construct s0) (pre ++ [b])).2).isSome
              = true) := by
  constructor
  · intro hok
    exact runOps_in_step h codec ops (construct s0) none (fun _ => rfl)
      (fun hf => by simp [outsideFrame, construct] at hf) hok
  · intro pre b hesc h1 h2
    have hopen := onBtDataAvailable_open pre (construct s0) none
      (fun hf => by simp [outsideFrame, construct] at hf)
      (by simp [outsideFrame, hesc])
    have hstep : onBtByte (onBtDataAvailable (construct s0) pre).1 b
        = (kissResetState (onBtDataAvailable (construct s0) pre).1, []) := by
      generalize (onBtDataAvailable (construct s0) pre).1 = s1 at hesc
      obtain ⟨st, cmd⟩ := s1
      simp only at hesc
      subst hesc
      simp [onBtByte, h1, h2]
    simp only [onBtDataAvailable_append, onBtDataAvailable, hstep, List.append_nil]
    exact ⟨rfl, trivial, hopen⟩

/-- C18, amended, on an orderly run (a serial frame in two chunks, then a line
from the IP transport, then a beacon): no `beginPacket` over an open
transmission; and on the serial bytes 0xC0, 0x00, 0x41, 0xDB, 0x42: the frame
is given up and its transmission stays open. -/
theorem single_open_transmission_witness :
    orderly sampleDecls sampleCodec (construct sampleService)
        [Op.bt [0xC0, 0x00, 0x41], Op.bt [0x42, 0xC0],
          Op.aprsis [Char.ofNat 65, Char.ofNat 62, Char.ofNat 66, Char.ofNat 13,
            Char.ofNat 10],
          Op.beacon sampleNet 5000] = true ∧
      beginsWhileOpen none
        (runOps sampleDecls sampleCodec (construct sampleService)
          [Op.bt [0xC0, 0x00, 0x41], Op.bt [0x42, 0xC0],
            Op.aprsis [Char.ofNat 65, Char.ofNat 62, Char.ofNat 66, Char.ofNat 13,
              Char.ofNat 10],
            Op.beacon sampleNet 5000]).2 = 0 ∧
      (openAfter none (onBtDataAvailable (construct sampleService)
        ([0xC0, 0x00, 0x41, 0xDB] ++ [0x42])).2).isSome = true :=
  ⟨by decide,
    (single_open_transmission sampleDecls sampleCodec sampleService
      [Op.bt [0xC0, 0x00, 0x41], Op.bt [0x42, 0xC0],
        Op.aprsis [Char.ofNat 65, Char.ofNat 62, Char.ofNat 66, Char.ofNat 13,
          Char.ofNat 10],
        Op.beacon sampleNet 5000]).1 (by decide),
    ((single_open_transmission sampleDecls sampleCodec sampleService []).2
      [0xC0, 0x00, 0x41, 0xDB] 0x42 (by decide) (by decide) (by decide)).2.2⟩

end LoraPrs
